import Mathlib

/-!
Billing service (`components/usage/pkg/apiv1/billing.go`).

A shallow embedding of the `BillingService` RPC handlers.

* Every handler is a function `World → … → Except Error α × World`: the `World` is
  the state of the collaborators the handler writes to (cost-center store, usage
  ledger, the calls sent to the payment processor, the database cache and the
  identity gateway, the set of blocked users).
* What a collaborator answers is not decided by this file: each collaborator call
  is a field of `BillingService` that maps the current `World` and the arguments
  to an outcome, so a theorem quantified over the service holds for every pattern
  of outcomes (every write changes the world, hence two writes with the same
  arguments may be answered differently).
* `int64` values are integers; the one `int64` accumulation of the file
  (`creditsOnInvoice`) wraps explicitly (`wrapInt64`).
* `float64` values are the rationals a binary64 number can hold: every conversion
  to `float64` and every `float64` division rounds to 53 significant bits, ties
  to even (`float64`).  Exponent range is not modelled: the values of this file
  are zero or lie between `1/100` and `2^64` in absolute value.
* Log statements have no effect on results and are left out.
-/

namespace Billing

/-! ## Errors -/

/-- The gRPC status codes the handlers use (`google.golang.org/grpc/codes`);
`Unknown` is the code of an error that is not a gRPC status. -/
inductive Code where
  | InvalidArgument
  | NotFound
  | AlreadyExists
  | Internal
  | Unknown
  deriving DecidableEq, Repr

/-- A Go `error`: for an error made by `status.Errorf(code, …)` the code and the
formatted description, for an error of a collaborator its code and its
`Error()` text. -/
structure Error where
  code : Code
  msg : String
  deriving DecidableEq, Repr

/-- The errors of the database layer: `db.ErrorNotFound` is the sentinel tested
with `errors.Is`, every other database error is `other` with its `Error()`
text. -/
inductive DBError where
  | ErrorNotFound
  | other (msg : String)
  deriving DecidableEq, Repr

/-! ## Data of the collaborators -/

/-- Go: `type AttributionID string`. -/
abbrev AttributionID := String

/-- Modelled from the spec: the constant `db.AttributionEntity_User` is not in the
source file; the spec writes an individual attribution as `user:5`. -/
def AttributionEntity_User : String := "user"

/-- Modelled from the spec: the constant `db.AttributionEntity_Team` is not in the
source file; the spec writes an organization attribution as `team:42`. -/
def AttributionEntity_Team : String := "team"

/-- Modelled from the spec: the constant `stripe.AttributionIDMetadataKey` is not in
the source file; it is the metadata key under which a processor customer carries
its attribution. -/
def AttributionIDMetadataKey : String := "attributionId"

/-- The constant `stripe.PreferredCurrencyMetadataKey`; `getPriceIdentifier` reads
the same entry as `Metadata["preferredCurrency"]`. -/
def PreferredCurrencyMetadataKey : String := "preferredCurrency"

/-- Go map indexing `m[k]` on a `map[string]string`: the zero value `""` when the
key is absent. -/
def mapIndex (m : List (String × String)) (k : String) : String :=
  (m.lookup k).getD ""

/-- A subscription as listed on a processor customer. -/
structure Subscription where
  ID : String
  Status : String
  PlanID : String
  deriving DecidableEq, Repr

/-- The `Tax` block of a processor customer. -/
structure CustomerTax where
  AutomaticTax : String
  deriving DecidableEq, Repr

/-- The fields of `stripe_api.Customer` the handlers read.  `Subscriptions` is the
`Subscriptions.Data` slice (the handlers dereference `Subscriptions` unguarded);
`Tax` is a pointer the handlers test for `nil`. -/
structure Customer where
  ID : String
  Metadata : List (String × String)
  Subscriptions : List Subscription
  Tax : Option CustomerTax
  Created : Int
  deriving DecidableEq, Repr

/-- A line of an invoice; `Quantity` is an `int64`. -/
structure InvoiceLineItem where
  Quantity : Int
  deriving DecidableEq, Repr

/-- The fields of `stripe_api.Invoice` the handlers read.  `Customer` is the
expanded customer pointer, `FinalizedAt` is `StatusTransitions.FinalizedAt`
(Unix seconds), `Lines` is `none` for a `nil` line list and `some data` for a
list whose `Data` slice is `data`. -/
structure Invoice where
  ID : String
  Customer : Option Customer
  FinalizedAt : Int
  Lines : Option (List InvoiceLineItem)
  deriving DecidableEq, Repr

/-- A subscription fetched with its customer expanded. -/
structure SubscriptionWithCustomer where
  ID : String
  Customer : Option Customer
  deriving DecidableEq, Repr

/-- The payment intent of a dispute; `Customer` may be missing. -/
structure PaymentIntent where
  Customer : Option Customer
  deriving DecidableEq, Repr

/-- A dispute; `PaymentIntent` may be missing. -/
structure Dispute where
  ID : String
  PaymentIntent : Option PaymentIntent
  deriving DecidableEq, Repr

/-- Modelled from the spec: the type `stripe.PaymentHoldResult` is not in the source
file; the spec gives `tryHoldAmount` the results `Succeeded | Failed`, and a
third constructor stands for any further value of the Go string type. -/
inductive PaymentHoldResult where
  | PaymentHoldResultSucceeded
  | PaymentHoldResultFailed
  | other (s : String)
  deriving DecidableEq, Repr

/-- Modelled from the spec: the type `db.BillingStrategy` is not in the source file;
the spec lists `None | ProcessorBilled | Other`, the source names
`db.CostCenter_Stripe` (processor billed) and `db.CostCenter_Other`. -/
inductive BillingStrategy where
  | CostCenter_None
  | CostCenter_Stripe
  | CostCenter_Other
  deriving DecidableEq, Repr

/-- Modelled from the spec: the record `db.CostCenter`, one per attribution, with
the fields of the spec (`ID` is the attribution). -/
structure CostCenter where
  ID : AttributionID
  BillingStrategy : BillingStrategy
  BillingCycleStart : Int
  NextBillingTime : Int
  SpendingLimit : Int
  deriving DecidableEq, Repr

/-- The kinds of usage record (`db.InvoiceUsageKind` is the invoice adjustment). -/
inductive UsageKind where
  | WorkspaceInstanceUsageKind
  | InvoiceUsageKind
  deriving DecidableEq, Repr

/-- The record `db.Usage` as `InternalComputeInvoiceUsage` fills it.
`CreditCents` is an `int64` amount in hundredths of a credit, `EffectiveTime` is
in Unix seconds, `Metadata` is `none` for `nil`. -/
structure Usage where
  ID : String
  AttributionID : AttributionID
  Description : String
  CreditCents : Int
  EffectiveTime : Int
  Kind : UsageKind
  Draft : Bool
  Metadata : Option String
  deriving DecidableEq, Repr

/-- An entry of `db.ListBalance`: an attribution and its balance in credit cents. -/
structure Balance where
  AttributionID : AttributionID
  CreditCents : Int
  deriving DecidableEq, Repr

/-- The row `db.StripeCustomer` of the local customer cache. -/
structure DBStripeCustomer where
  StripeCustomerID : String
  AttributionID : AttributionID
  CreationTime : Int
  Currency : String
  deriving DecidableEq, Repr

/-- The message `v1.StripeCustomer` returned to the caller. -/
structure StripeCustomer where
  Id : String
  Currency : String
  deriving DecidableEq, Repr

/-- The roles of a team member (`experimental_v1.TeamRole`). -/
inductive TeamRole where
  | TEAM_ROLE_UNSPECIFIED
  | TEAM_ROLE_OWNER
  | TEAM_ROLE_MEMBER
  deriving DecidableEq, Repr

/-- A member of a team as the teams service lists it. -/
structure TeamMember where
  UserId : String
  Role : TeamRole
  deriving DecidableEq, Repr

/-- The price identifiers of one entity kind, per currency. -/
structure PriceIDs where
  EUR : String
  USD : String
  deriving DecidableEq, Repr

/-- The configuration `stripe.StripePrices`. -/
structure StripePrices where
  IndividualUsagePriceIDs : PriceIDs
  TeamUsagePriceIDs : PriceIDs
  deriving DecidableEq, Repr

/-! ## The world the handlers act on -/

/-- A call that writes to a collaborator, as sent.  `BlockUser` also records the
answer (`none` for success) so that the attempts that failed can be told from
the trace. -/
inductive Call where
  | CreateStripeCustomer (row : DBStripeCustomer)
  | SetDefaultPaymentForCustomer (customerID setupIntentID : String)
  | TryHoldAmount (customerID : String) (amountInCents : Int)
  | CreateSubscription (customerID priceID : String) (isAutomaticTaxSupported : Bool)
  | UpdateUsage (creditsPerAttributionID : List (AttributionID × Int))
  | IncrementBillingCycle (attributionID : AttributionID)
  | BlockUser (userId reason : String) (err : Option Error)
  deriving DecidableEq, Repr

/-- The state of the collaborators.
* `costCenters`: the cost-center store, one record per attribution;
* `ledger`: the usage ledger, in insertion order;
* `blocked`: the users the identity gateway has blocked, in blocking order;
* `calls`: every writing call made so far, in order. -/
structure World where
  costCenters : List CostCenter
  ledger : List Usage
  blocked : List String
  calls : List Call
  deriving DecidableEq, Repr

/-! ## The collaborators

Each field is the answer of one collaborator call, as a function of the world at
the time of the call and of the arguments.  The state changes that go with an
answer are applied by the wrappers further down. -/

/-- The package `stripe` and its `Client`.  `GetAttributionID` is the package
function `stripe.GetAttributionID(ctx, customer)`; it takes a customer pointer
and reads no external state. -/
structure StripeClient where
  GetAttributionID : Option Customer → Except Error AttributionID
  GetCustomerByAttributionID : World → String → Except Error Customer
  GetCustomer : World → String → Except Error Customer
  SetDefaultPaymentForCustomer : World → String → String → Option Error
  TryHoldAmount : World → Customer → Int → PaymentHoldResult × Option Error
  CreateSubscription : World → String → String → Bool → Except Error Subscription
  UpdateUsage : World → List (AttributionID × Int) → Option Error
  GetInvoiceWithCustomer : World → String → Except Error Invoice
  GetSubscriptionWithCustomer : World → String → Except Error SubscriptionWithCustomer
  GetDispute : World → String → Except Error Dispute

/-- The package `db` over the connection `conn`.  `ParseAttributionID` and `Values`
are the pure functions `db.ParseAttributionID` and `AttributionID.Values`. -/
structure DB where
  ParseAttributionID : String → Except Error AttributionID
  Values : AttributionID → String × String
  GetStripeCustomerByAttributionID : World → AttributionID → Except DBError DBStripeCustomer
  GetStripeCustomer : World → String → Except DBError DBStripeCustomer
  CreateStripeCustomer : World → DBStripeCustomer → Option Error
  ListBalance : World → Except Error (List Balance)
  GetBalance : World → AttributionID → Except Error Int
  InsertUsage : World → Usage → Option Error

/-- The cost-center manager: whether a call fails, the record a first access
creates, and the record a billing-cycle increment produces. -/
structure CostCenterManager where
  getOrCreateFailure : World → AttributionID → Option Error
  newCostCenter : AttributionID → CostCenter
  updateFailure : World → CostCenter → Option Error
  incrementBillingCycle : World → AttributionID → Except Error CostCenter

/-- The teams service: `GetTeam` answers with the members of the team. -/
structure TeamsServiceClient where
  GetTeam : World → String → Except Error (List TeamMember)

/-- The user service: `BlockUser userId reason` answers `none` on success. -/
structure UserServiceClient where
  BlockUser : World → String → String → Option Error

/-- The service of the source, with the identifier generator `uuid.New` as one
more field. -/
structure BillingService where
  conn : DB
  stripeClient : StripeClient
  ccManager : CostCenterManager
  stripePrices : StripePrices
  teamsService : TeamsServiceClient
  userService : UserServiceClient
  uuidNew : World → String

/-! ## Amounts -/

/-- Two-complement wrap-around of an `int64` result. -/
def wrapInt64 (x : Int) : Int :=
  (x + 2 ^ 63) % 2 ^ 64 - 2 ^ 63

/-- Rounding to the nearest integer, ties to the even one. -/
def roundHalfEven (y : ℚ) : Int :=
  if y - (Int.floor y : ℚ) < 1 / 2 then Int.floor y
  else if 1 / 2 < y - (Int.floor y : ℚ) then Int.floor y + 1
  else if Int.floor y % 2 = 0 then Int.floor y
  else Int.floor y + 1

/-- The `float64` nearest to a rational (IEEE-754 binary64, round to nearest, ties to
even): `x` is rounded to a multiple of `2^(e-52)`, where `2^e ≤ |x| < 2^(e+1)`.
It is the value of the conversion `float64(n)` of an integer and of the result
of a `float64` operation whose exact result is `x`. -/
def float64 (x : ℚ) : ℚ :=
  if x = 0 then 0
  else (roundHalfEven (x / (2 : ℚ) ^ (Int.log 2 |x| - 52)) : ℚ) * (2 : ℚ) ^ (Int.log 2 |x| - 52)

/-- Go conversion `int64(x)` of a `float64`: the fraction is dropped. -/
def int64OfFloat64 (x : ℚ) : Int :=
  if 0 ≤ x then Int.floor x else Int.ceil x

/-- Modelled from the spec: the method `CreditCents.ToCredits` is not in the source
file; the spec expresses a balance in credits as cents/100.  The result is a
`float64` (the source passes it to `math.Ceil` and logs it with `%f`), so the
balance is converted to `float64` and divided by the `float64` 100. -/
def ToCredits (cc : Int) : ℚ :=
  float64 (float64 (cc : ℚ) / float64 100)

/-- Modelled from the spec: the constructor `db.NewCreditCents` is not in the source
file; the spec has the inserted record equal to `-creditsOnInvoice`
(`creditCents = -450` for the quantities 300 and 150), so the constructor keeps
the amount it is given, as an `int64`. -/
def NewCreditCents (n : ℚ) : Int :=
  int64OfFloat64 n

/-- The expression `int64(math.Ceil(cc.ToCredits()))` of `ReconcileInvoices` and
`FinalizeInvoice`; the ceiling of a `float64` below `2^63` is an integer that
`float64` and `int64` both hold. -/
def ceilCredits (cc : Int) : Int :=
  Int.ceil (ToCredits cc)

/-- Go map assignment `m[k] = v` on a map kept as a list of entries with distinct
keys, in order of first insertion. -/
def mapSet (m : List (AttributionID × Int)) (k : AttributionID) (v : Int) :
    List (AttributionID × Int) :=
  if m.any (fun e => e.1 == k) then m.map (fun e => if e.1 == k then (k, v) else e)
  else m ++ [(k, v)]

/-! ## Writes to the collaborators -/

/-- The call `db.InsertUsage(ctx, conn, usage)`: a successful insertion appends the
record to the ledger. -/
def InsertUsage (s : BillingService) (w : World) (usage : Usage) : Option Error × World :=
  match s.conn.InsertUsage w usage with
  | some err => (some err, w)
  | none => (none, { w with ledger := w.ledger ++ [usage] })

/-- The call `db.CreateStripeCustomer(ctx, conn, row)` on the customer cache. -/
def CreateStripeCustomerRow (s : BillingService) (w : World) (row : DBStripeCustomer) :
    Option Error × World :=
  (s.conn.CreateStripeCustomer w row,
    { w with calls := w.calls ++ [Call.CreateStripeCustomer row] })

/-- The call `stripeClient.SetDefaultPaymentForCustomer`. -/
def SetDefaultPaymentForCustomer (s : BillingService) (w : World)
    (customerID setupIntentID : String) : Option Error × World :=
  (s.stripeClient.SetDefaultPaymentForCustomer w customerID setupIntentID,
    { w with calls := w.calls ++ [Call.SetDefaultPaymentForCustomer customerID setupIntentID] })

/-- The call `stripeClient.TryHoldAmount`: it answers with a result and an error. -/
def TryHoldAmount (s : BillingService) (w : World) (customer : Customer) (amountInCents : Int) :
    (PaymentHoldResult × Option Error) × World :=
  (s.stripeClient.TryHoldAmount w customer amountInCents,
    { w with calls := w.calls ++ [Call.TryHoldAmount customer.ID amountInCents] })

/-- The call `stripeClient.CreateSubscription`. -/
def CreateSubscription (s : BillingService) (w : World) (customerID priceID : String)
    (isAutomaticTaxSupported : Bool) : Except Error Subscription × World :=
  (s.stripeClient.CreateSubscription w customerID priceID isAutomaticTaxSupported,
    { w with calls := w.calls ++ [Call.CreateSubscription customerID priceID isAutomaticTaxSupported] })

/-- The call `stripeClient.UpdateUsage`. -/
def UpdateUsage (s : BillingService) (w : World) (creditsPerAttributionID : List (AttributionID × Int)) :
    Option Error × World :=
  (s.stripeClient.UpdateUsage w creditsPerAttributionID,
    { w with calls := w.calls ++ [Call.UpdateUsage creditsPerAttributionID] })

/-- The call `userService.BlockUser`: the attempt is recorded with its answer, and a
successful attempt adds the user to the blocked users. -/
def BlockUser (s : BillingService) (w : World) (userId reason : String) : Option Error × World :=
  let err := s.userService.BlockUser w userId reason
  (err,
    { w with
      calls := w.calls ++ [Call.BlockUser userId reason err]
      blocked := if err.isNone then w.blocked ++ [userId] else w.blocked })

/-! ## The cost-center store -/

/-- The record of the store for an attribution, if there is one. -/
def findCostCenter (store : List CostCenter) (attributionID : AttributionID) : Option CostCenter :=
  store.find? (fun c => c.ID == attributionID)

/-- Modelled from the spec: a cost center is superseded in place; a record of an
attribution not yet in the store is added. -/
def supersede (cc : CostCenter) (store : List CostCenter) : List CostCenter :=
  if store.any (fun c => c.ID == cc.ID) then store.map (fun c => if c.ID == cc.ID then cc else c)
  else store ++ [cc]

/-- Modelled from the spec: `CostCenterManager.GetOrCreateCostCenter` is not in the
source file; the spec has the cost center of an attribution created lazily on
first access and returned as stored afterwards. -/
def CostCenterManager.GetOrCreateCostCenter (cm : CostCenterManager) (w : World)
    (attributionID : AttributionID) : Except Error CostCenter × World :=
  match cm.getOrCreateFailure w attributionID with
  | some err => (.error err, w)
  | none =>
    match findCostCenter w.costCenters attributionID with
    | some cc => (.ok cc, w)
    | none =>
      let cc := { cm.newCostCenter attributionID with ID := attributionID }
      (.ok cc, { w with costCenters := w.costCenters ++ [cc] })

/-- Modelled from the spec: `CostCenterManager.UpdateCostCenter` is not in the source
file; the spec has `updateCostCenter(CostCenter) -> CostCenter` supersede the
stored record in place. -/
def CostCenterManager.UpdateCostCenter (cm : CostCenterManager) (w : World) (cc : CostCenter) :
    Except Error CostCenter × World :=
  match cm.updateFailure w cc with
  | some err => (.error err, w)
  | none => (.ok cc, { w with costCenters := supersede cc w.costCenters })

/-- Modelled from the spec: `CostCenterManager.IncrementBillingCycle` is not in the
source file; the spec has it advance the cycle boundaries of the cost center of
the attribution; the advanced record is the answer of the manager. -/
def CostCenterManager.IncrementBillingCycle (cm : CostCenterManager) (w : World)
    (attributionID : AttributionID) : Except Error CostCenter × World :=
  match cm.incrementBillingCycle w attributionID with
  | .error err =>
    (.error err, { w with calls := w.calls ++ [Call.IncrementBillingCycle attributionID] })
  | .ok cc =>
    let cc1 := { cc with ID := attributionID }
    (.ok cc1,
      { w with
        costCenters := supersede cc1 w.costCenters
        calls := w.calls ++ [Call.IncrementBillingCycle attributionID] })

/-- The cost center of an attribution in a world: the stored record, or the record
a first access would create. -/
def costCenterOf (cm : CostCenterManager) (w : World) (attributionID : AttributionID) : CostCenter :=
  (findCostCenter w.costCenters attributionID).getD
    { cm.newCostCenter attributionID with ID := attributionID }

/-! ## `GetStripeCustomer` -/

/-- The `oneof` identifier of a `GetStripeCustomerRequest`; `unset` is any other
value (the `default` branch of the type switch). -/
inductive Identifier where
  | AttributionId (attributionId : String)
  | StripeCustomerId (stripeCustomerId : String)
  | unset
  deriving DecidableEq, Repr

/-- Source: `convertStripeCustomer`. -/
def convertStripeCustomer (customer : Customer) : StripeCustomer :=
  { Id := customer.ID, Currency := mapIndex customer.Metadata PreferredCurrencyMetadataKey }

/-- Source: `convertDBStripeCustomerToResponse`. -/
def convertDBStripeCustomerToResponse (cus : DBStripeCustomer) : StripeCustomer :=
  { Id := cus.StripeCustomerID, Currency := cus.Currency }

/-- The zero value `db.StripeCustomer{}`, which a failed database lookup returns
next to its error. -/
def zeroDBStripeCustomer : DBStripeCustomer :=
  { StripeCustomerID := "", AttributionID := "", CreationTime := 0, Currency := "" }

/-- Source: `BillingService.storeStripeCustomer`. -/
def storeStripeCustomer (s : BillingService) (w : World) (cus : Customer)
    (attributionID : AttributionID) : Except Error StripeCustomer × World :=
  match CreateStripeCustomerRow s w
      { StripeCustomerID := cus.ID
        AttributionID := attributionID
        Currency := mapIndex cus.Metadata PreferredCurrencyMetadataKey
        CreationTime := cus.Created } with
  | (some err, w1) => (.error err, w1)
  | (none, w1) =>
    (.ok { Id := cus.ID, Currency := mapIndex cus.Metadata PreferredCurrencyMetadataKey }, w1)

/-- Source: the closure `storeStripeCustomerAndRespond` of `GetStripeCustomer`: a
failed store is logged and the customer is returned all the same. -/
def storeStripeCustomerAndRespond (s : BillingService) (w : World) (cus : Customer)
    (attributionID : AttributionID) : Except Error StripeCustomer × World :=
  match storeStripeCustomer s w cus attributionID with
  | (.error _, w1) => (.ok (convertStripeCustomer cus), w1)
  | (.ok result, w1) => (.ok result, w1)

/-- Source: `BillingService.GetStripeCustomer`.  The response is its `Customer`.
When `ParseAttributionID` fails the attribution it returns is the empty string,
which is what the message formats. -/
def GetStripeCustomer (s : BillingService) (w : World) (identifier : Identifier) :
    Except Error StripeCustomer × World :=
  match identifier with
  | .AttributionId attributionId =>
    match s.conn.ParseAttributionID attributionId with
    | .error _ => (.error ⟨.InvalidArgument, "Invalid attribution ID " ++ ""⟩, w)
    | .ok attributionID =>
      match s.conn.GetStripeCustomerByAttributionID w attributionID with
      | .error .ErrorNotFound =>
        match s.stripeClient.GetCustomerByAttributionID w attributionID with
        | .error err => (.error err, w)
        | .ok stripeCustomer => storeStripeCustomerAndRespond s w stripeCustomer attributionID
      | .error (.other _) => (.ok (convertDBStripeCustomerToResponse zeroDBStripeCustomer), w)
      | .ok customer => (.ok (convertDBStripeCustomerToResponse customer), w)
  | .StripeCustomerId stripeCustomerId =>
    if stripeCustomerId = "" then
      (.error ⟨.InvalidArgument, "empty stripe customer ID supplied"⟩, w)
    else
      match s.conn.GetStripeCustomer w stripeCustomerId with
      | .error .ErrorNotFound =>
        match s.stripeClient.GetCustomer w stripeCustomerId with
        | .error err => (.error err, w)
        | .ok stripeCustomer =>
          match s.stripeClient.GetAttributionID (some stripeCustomer) with
          | .error _ =>
            (.error ⟨.Internal,
              "Failed to parse attribution ID from Stripe customer " ++ stripeCustomer.ID⟩, w)
          | .ok attributionID => storeStripeCustomerAndRespond s w stripeCustomer attributionID
      | .error (.other msg) =>
        (.error ⟨.NotFound, "Failed to lookup stripe customer from DB: " ++ msg⟩, w)
      | .ok customer => (.ok (convertDBStripeCustomerToResponse customer), w)
  | .unset => (.error ⟨.InvalidArgument, "Unknown identifier"⟩, w)

/-! ## `CreateStripeSubscription` -/

/-- Source: `getPriceIdentifier`. -/
def getPriceIdentifier (attributionID : AttributionID) (stripeCustomer : Customer)
    (s : BillingService) : Except Error String :=
  let preferredCurrency := mapIndex stripeCustomer.Metadata "preferredCurrency"
  let entity := (s.conn.Values attributionID).1
  if entity = AttributionEntity_User then
    if preferredCurrency = "EUR" then .ok s.stripePrices.IndividualUsagePriceIDs.EUR
    else .ok s.stripePrices.IndividualUsagePriceIDs.USD
  else if entity = AttributionEntity_Team then
    if preferredCurrency = "EUR" then .ok s.stripePrices.TeamUsagePriceIDs.EUR
    else .ok s.stripePrices.TeamUsagePriceIDs.USD
  else
    .error ⟨.InvalidArgument,
      "Invalid currency " ++ mapIndex stripeCustomer.Metadata "preferredCurrency"
        ++ " for customer ID " ++ stripeCustomer.ID⟩

/-- The flag `isAutomaticTaxSupported` of `CreateStripeSubscription`: `false` when
the customer has no `Tax` block. -/
def isAutomaticTaxSupported (stripeCustomer : Customer) : Bool :=
  match stripeCustomer.Tax with
  | some tax => tax.AutomaticTax == "supported"
  | none => false

/-- Source: `BillingService.CreateStripeSubscription`.  The response is the id of
the created subscription. -/
def CreateStripeSubscription (s : BillingService) (w : World)
    (attributionId setupIntentId : String) : Except Error String × World :=
  match s.conn.ParseAttributionID attributionId with
  | .error _ => (.error ⟨.InvalidArgument, "Invalid attribution ID " ++ ""⟩, w)
  | .ok attributionID =>
    match GetStripeCustomer s w (.AttributionId attributionID) with
    | (.error err, w1) => (.error err, w1)
    | (.ok customer, w1) =>
      match SetDefaultPaymentForCustomer s w1 customer.Id setupIntentId with
      | (some _, w2) =>
        (.error ⟨.InvalidArgument,
          "Failed to set default payment for customer ID " ++ customer.Id⟩, w2)
      | (none, w2) =>
        match s.stripeClient.GetCustomer w2 customer.Id with
        | .error err => (.error err, w2)
        | .ok stripeCustomer =>
          match stripeCustomer.Subscriptions.find? (fun sub => sub.Status != "canceled") with
          | some subscription =>
            (.error ⟨.AlreadyExists,
              "Customer (" ++ attributionID ++ ") already has an active subscription ("
                ++ subscription.ID ++ ")"⟩, w2)
          | none =>
            match getPriceIdentifier attributionID stripeCustomer s with
            | .error err => (.error err, w2)
            | .ok priceID =>
              match TryHoldAmount s w2 stripeCustomer 1000 with
              | ((result, _), w3) =>
                if result ≠ PaymentHoldResult.PaymentHoldResultSucceeded then
                  (.error ⟨.InvalidArgument,
                    "The provided payment method is invalid. Please provide working credit card information to proceed."⟩,
                    w3)
                else
                  match CreateSubscription s w3 stripeCustomer.ID priceID
                      (isAutomaticTaxSupported stripeCustomer) with
                  | (.error _, w4) =>
                    (.error ⟨.Internal,
                      "Failed to create subscription with customer ID " ++ customer.Id⟩, w4)
                  | (.ok subscription, w4) => (.ok subscription.ID, w4)

/-- Whether a call is an authorization hold on a payment method. -/
def Call.isTryHoldAmount : Call → Bool
  | .TryHoldAmount _ _ => true
  | _ => false

/-- Whether a call creates a subscription at the processor. -/
def Call.isCreateSubscription : Call → Bool
  | .CreateSubscription _ _ _ => true
  | _ => false

/-- The user an attempt to block names, for a call that is such an attempt. -/
def Call.blockUserId : Call → Option String
  | .BlockUser userId _ _ => some userId
  | _ => none

/-- The error `OnChargeDispute` keeps for an attempt to block that failed. -/
def Call.blockFailure : Call → Option Error
  | .BlockUser userId _ (some err) =>
    some ⟨err.code, "failed to block user " ++ userId ++ ": " ++ err.msg⟩
  | _ => none

/-- The user blocked by an attempt to block that succeeded. -/
def Call.blockSuccess : Call → Option String
  | .BlockUser userId _ none => some userId
  | _ => none

/-! ## `ReconcileInvoices` -/

/-- The loop of `balancesForStripeCostCenters`, with the slice `result` built so
far. -/
def balancesForStripeCostCentersLoop (cm : CostCenterManager) :
    List Balance → World → List Balance → Except Error (List Balance) × World
  | [], w, result => (.ok result, w)
  | balance :: rest, w, result =>
    match cm.GetOrCreateCostCenter w balance.AttributionID with
    | (.error err, w1) => (.error err, w1)
    | (.ok costCenter, w1) =>
      if costCenter.BillingStrategy ≠ BillingStrategy.CostCenter_Stripe then
        balancesForStripeCostCentersLoop cm rest w1 result
      else
        balancesForStripeCostCentersLoop cm rest w1 (result ++ [balance])

/-- Source: `balancesForStripeCostCenters`. -/
def balancesForStripeCostCenters (cm : CostCenterManager) (w : World) (balances : List Balance) :
    Except Error (List Balance) × World :=
  balancesForStripeCostCentersLoop cm balances w []

/-- The map `creditCentsByAttribution` that `ReconcileInvoices` fills from the
balances of the processor-billed cost centers. -/
def creditCentsByAttribution (stripeBalances : List Balance) : List (AttributionID × Int) :=
  stripeBalances.foldl
    (fun m balance => mapSet m balance.AttributionID (ceilCredits balance.CreditCents)) []

/-- Source: `BillingService.ReconcileInvoices`. -/
def ReconcileInvoices (s : BillingService) (w : World) : Except Error Unit × World :=
  match s.conn.ListBalance w with
  | .error _ => (.error ⟨.Internal, "Failed to reconcile invoices."⟩, w)
  | .ok balances =>
    match balancesForStripeCostCenters s.ccManager w balances with
    | (.error _, w1) => (.error ⟨.Internal, "Failed to identify stripe balances."⟩, w1)
    | (.ok stripeBalances, w1) =>
      match UpdateUsage s w1 (creditCentsByAttribution stripeBalances) with
      | (some _, w2) => (.error ⟨.Internal, "Failed to update usage in stripe"⟩, w2)
      | (none, w2) => (.ok (), w2)

/-! ## `FinalizeInvoice` -/

/-- The accumulation `creditsOnInvoice += line.Quantity` over the lines, in
`int64`. -/
def creditsOnInvoice (lines : List InvoiceLineItem) : Int :=
  lines.foldl (fun acc line => wrapInt64 (acc + line.Quantity)) 0

/-- The sum of the quantities of the lines, as a mathematical integer. -/
def sumQuantities (lines : List InvoiceLineItem) : Int :=
  (lines.map (fun line => line.Quantity)).sum

/-- Source: `InternalComputeInvoiceUsage`.  The identifier `uuid.New()` is taken
from the service in the given world. -/
def InternalComputeInvoiceUsage (s : BillingService) (w : World) (invoice : Invoice) :
    Except Error Usage :=
  match s.stripeClient.GetAttributionID invoice.Customer with
  | .error err => .error err
  | .ok attributionID =>
    let finalizedAt := invoice.FinalizedAt
    if invoice.Lines.isNone || (invoice.Lines.getD []).length == 0 then
      .error ⟨.Internal, "Invoice did not contain any lines."⟩
    else
      let lines := invoice.Lines.getD []
      .ok
        { ID := s.uuidNew w
          AttributionID := attributionID
          Description := "Invoice " ++ invoice.ID ++ " finalized in Stripe"
          CreditCents :=
            NewCreditCents (float64 ((wrapInt64 (-(creditsOnInvoice lines)) : Int) : ℚ))
          EffectiveTime := finalizedAt
          Kind := UsageKind.InvoiceUsageKind
          Draft := false
          Metadata := none }

/-- Source: `BillingService.FinalizeInvoice`. -/
def FinalizeInvoice (s : BillingService) (w : World) (invoiceId : String) :
    Except Error Unit × World :=
  if invoiceId = "" then (.error ⟨.InvalidArgument, "Missing InvoiceID"⟩, w)
  else
    match s.stripeClient.GetInvoiceWithCustomer w invoiceId with
    | .error err =>
      (.error ⟨.NotFound, "Failed to get invoice with ID " ++ invoiceId ++ ": " ++ err.msg⟩, w)
    | .ok invoice =>
      match InternalComputeInvoiceUsage s w invoice with
      | .error err => (.error err, w)
      | .ok usage =>
        match InsertUsage s w usage with
        | (some _, w1) =>
          (.error ⟨.Internal, "Failed to insert Invoice into usage records."⟩, w1)
        | (none, w1) =>
          match s.ccManager.IncrementBillingCycle w1 usage.AttributionID with
          | (_, w2) =>
            match s.conn.GetBalance w2 usage.AttributionID with
            | .error _ => (.ok (), w2)
            | .ok newBalance =>
              match UpdateUsage s w2 [(usage.AttributionID, ceilCredits newBalance)] with
              | (_, w3) => (.ok (), w3)

/-! ## `CancelSubscription` -/

/-- Source: `BillingService.CancelSubscription`. -/
def CancelSubscription (s : BillingService) (w : World) (subscriptionId : String) :
    Except Error Unit × World :=
  if subscriptionId = "" then (.error ⟨.InvalidArgument, "subscriptionId is required"⟩, w)
  else
    match s.stripeClient.GetSubscriptionWithCustomer w subscriptionId with
    | .error err => (.error err, w)
    | .ok subscription =>
      match s.stripeClient.GetAttributionID subscription.Customer with
      | .error err => (.error err, w)
      | .ok attributionID =>
        match s.ccManager.GetOrCreateCostCenter w attributionID with
        | (.error err, w1) => (.error err, w1)
        | (.ok costCenter, w1) =>
          match s.ccManager.UpdateCostCenter w1
              { costCenter with BillingStrategy := BillingStrategy.CostCenter_Other } with
          | (.error err, w2) => (.error err, w2)
          | (.ok _, w2) => (.ok (), w2)

/-! ## `OnChargeDispute` -/

/-- The user ids a dispute blocks (`userIDsToBlock`), from the attribution of the
customer: the user itself, or the owners of the team. -/
def userIDsToBlock (s : BillingService) (w : World) (attributionID : AttributionID)
    (attributionIDValue : String) : Except Error (List String) :=
  let entity := (s.conn.Values attributionID).1
  let id := (s.conn.Values attributionID).2
  if entity = AttributionEntity_User then .ok [id]
  else if entity = AttributionEntity_Team then
    match s.teamsService.GetTeam w id with
    | .error _ => .error ⟨.Internal, "failed to lookup team details for team ID: " ++ id⟩
    | .ok members =>
      .ok ((members.filter (fun member => !(member.Role != TeamRole.TEAM_ROLE_OWNER))).map
        (fun member => member.UserId))
  else .error ⟨.Internal, "unknown attribution entity for " ++ attributionIDValue⟩

/-- The reason given to `BlockUser`. -/
def blockReason (disputeId : String) : String :=
  "User has created a Stripe dispute ID: " ++ disputeId

/-- The error appended to `errs` for a user whose block failed
(`fmt.Errorf("failed to block user %s: %w", userToBlock, err)`). -/
def blockError (userToBlock : String) (err : Error) : Error :=
  ⟨err.code, "failed to block user " ++ userToBlock ++ ": " ++ err.msg⟩

/-- The loop over `userIDsToBlock` of `OnChargeDispute`, with the slice `errs`
built so far. -/
def blockUsers (s : BillingService) (disputeId : String) :
    List String → World → List Error → List Error × World
  | [], w, errs => (errs, w)
  | userToBlock :: rest, w, errs =>
    match BlockUser s w userToBlock (blockReason disputeId) with
    | (some err, w1) => blockUsers s disputeId rest w1 (errs ++ [blockError userToBlock err])
    | (none, w1) => blockUsers s disputeId rest w1 errs

/-- The text of `%v` for a slice of errors. -/
def formatErrors (errs : List Error) : String :=
  "[" ++ " ".intercalate (errs.map (fun e => e.msg)) ++ "]"

/-- Source: `BillingService.OnChargeDispute`. -/
def OnChargeDispute (s : BillingService) (w : World) (disputeId : String) :
    Except Error Unit × World :=
  if disputeId = "" then (.error ⟨.InvalidArgument, "dispute ID is required"⟩, w)
  else
    match s.stripeClient.GetDispute w disputeId with
    | .error _ =>
      (.error ⟨.Internal, "failed to retrieve dispute ID " ++ disputeId ++ " from stripe"⟩, w)
    | .ok dispute =>
      match dispute.PaymentIntent.bind (fun pi => pi.Customer) with
      | none =>
        (.error ⟨.Internal,
          "dispute did not contain customer of payment intent in expanded fields"⟩, w)
      | some customer =>
        match customer.Metadata.lookup AttributionIDMetadataKey with
        | none =>
          (.error ⟨.Internal,
            "Customer " ++ customer.ID ++ " object did not contain attribution ID in metadata"⟩, w)
        | some attributionIDValue =>
          match s.conn.ParseAttributionID attributionIDValue with
          | .error _ =>
            (.error ⟨.Internal, "failed to parse attribution ID from customer metadata"⟩, w)
          | .ok attributionID =>
            match userIDsToBlock s w attributionID attributionIDValue with
            | .error err => (.error err, w)
            | .ok userIDs =>
              match blockUsers s disputeId userIDs w [] with
              | (errs, w1) =>
                if errs.length > 0 then
                  (.error ⟨.Internal, "failed to block users: " ++ formatErrors errs⟩, w1)
                else (.ok (), w1)

/-! ## A concrete service

One fixed set of collaborators, used to run the handlers on the scenarios of the
specification. -/

/-- The characters before the first colon, and those after it if there is one. -/
def splitAtColon : List Char → List Char × Option (List Char)
  | [] => ([], none)
  | c :: cs =>
    if c = ':' then ([], some cs)
    else ((c :: (splitAtColon cs).1), (splitAtColon cs).2)

/-- Modelled from the spec: `db.ParseAttributionID` is not in the source file; the
spec has an attribution serialized as one token (`team:42`, `user:5`) of an
entity kind and an identifier, and has a malformed token (wrong shape, unknown
entity kind) fail with `InvalidArgument`. -/
def ParseAttributionID (token : String) : Except Error AttributionID :=
  match splitAtColon token.toList with
  | (kind, some id) =>
    if id.contains ':' then .error ⟨.InvalidArgument, "attribution ID does not have two parts"⟩
    else if String.mk kind = AttributionEntity_User ∨ String.mk kind = AttributionEntity_Team then
      .ok token
    else .error ⟨.InvalidArgument, "unknown attribution entity"⟩
  | (_, none) => .error ⟨.InvalidArgument, "attribution ID does not have two parts"⟩

/-- Modelled from the spec: `AttributionID.Values` is not in the source file; the
spec has it give the entity kind and the identifier of an attribution. -/
def Values (attributionID : AttributionID) : String × String :=
  match splitAtColon attributionID.toList with
  | (kind, some id) => if id.contains ':' then ("", "") else (String.mk kind, String.mk id)
  | (_, none) => ("", "")

/-- Modelled from the spec: `stripe.GetAttributionID` is not in the source file; the
attribution of a customer is parsed from its metadata, as `OnChargeDispute`
does in the source, and a missing customer is an error. -/
def GetAttributionID (customer : Option Customer) : Except Error AttributionID :=
  match customer with
  | none => .error ⟨.Internal, "Failed to retrieve customer details from invoice."⟩
  | some cus => ParseAttributionID (mapIndex cus.Metadata AttributionIDMetadataKey)

/-- A processor customer with the given id and attribution, no subscription and no
tax block. -/
def customerOf (id attributionId : String) : Customer :=
  { ID := id
    Metadata := [(AttributionIDMetadataKey, attributionId)]
    Subscriptions := []
    Tax := none
    Created := 1600000000 }

/-- The invoice `inv_1` of the specification: attribution `team:42`, two lines of
quantities 300 and 150. -/
def invoice1 : Invoice :=
  { ID := "inv_1"
    Customer := some (customerOf "cus_42" "team:42")
    FinalizedAt := 1700000000
    Lines := some [⟨300⟩, ⟨150⟩] }

/-- The invoice `inv_2`: attribution `team:42`, an empty list of lines. -/
def invoice2 : Invoice :=
  { ID := "inv_2"
    Customer := some (customerOf "cus_42" "team:42")
    FinalizedAt := 1700000000
    Lines := some [] }

/-- An invoice of attribution `team:42` with two lines of quantities
9007199254740992 (`2^53`) and 1. -/
def invoice4 : Invoice :=
  { ID := "inv_4"
    Customer := some (customerOf "cus_42" "team:42")
    FinalizedAt := 1700000000
    Lines := some [⟨9007199254740992⟩, ⟨1⟩] }

/-- The invoice `inv_3`: attribution `team:42`, no list of lines at all. -/
def invoice3 : Invoice :=
  { ID := "inv_3"
    Customer := some (customerOf "cus_42" "team:42")
    FinalizedAt := 1700000000
    Lines := none }

/-- The processor customer `cus_5` of attribution `user:5`: one subscription, of
status `active` or as given. -/
def customer5 (status : String) : Customer :=
  { customerOf "cus_5" "user:5" with Subscriptions := [⟨"sub_1", status, "price_1"⟩] }

/-- The members of team `7` in the specification: owners `u1` and `u3`, member
`u2`. -/
def team7 : List TeamMember :=
  [⟨"u1", .TEAM_ROLE_OWNER⟩, ⟨"u2", .TEAM_ROLE_MEMBER⟩, ⟨"u3", .TEAM_ROLE_OWNER⟩]

/-- The example processor: invoices `inv_1`, `inv_2` and `inv_3`, subscription `sub_9` of
attribution `user:5`, dispute `dp_1` of attribution `team:7` and `dp_2` of
attribution `user:5`; customer `cus_5` has an active subscription, customer
`cus_6` a canceled one; the hold fails for customer `cus_7`. -/
def exampleStripeClient : StripeClient where
  GetAttributionID := GetAttributionID
  GetCustomerByAttributionID := fun _ a => .ok (customerOf "cus_new" a)
  GetCustomer := fun _ id =>
    if id = "cus_5" then .ok (customer5 "active")
    else .ok { customerOf id "user:6" with Subscriptions := [⟨"sub_0", "canceled", "price_1"⟩] }
  SetDefaultPaymentForCustomer := fun _ _ _ => none
  TryHoldAmount := fun _ cus _ =>
    if cus.ID = "cus_7" then (.PaymentHoldResultFailed, some ⟨.Unknown, "card declined"⟩)
    else (.PaymentHoldResultSucceeded, none)
  CreateSubscription := fun _ _ priceID _ => .ok ⟨"sub_new", "active", priceID⟩
  UpdateUsage := fun _ _ => none
  GetInvoiceWithCustomer := fun _ id =>
    if id = "inv_1" then .ok invoice1
    else if id = "inv_2" then .ok invoice2
    else if id = "inv_3" then .ok invoice3
    else .error ⟨.Unknown, "no such invoice"⟩
  GetSubscriptionWithCustomer := fun _ id =>
    if id = "sub_9" then .ok ⟨"sub_9", some (customerOf "cus_5" "user:5")⟩
    else .error ⟨.Unknown, "no such subscription"⟩
  GetDispute := fun _ id =>
    if id = "dp_1" then .ok ⟨"dp_1", some ⟨some (customerOf "cus_7" "team:7")⟩⟩
    else if id = "dp_2" then .ok ⟨"dp_2", some ⟨some (customerOf "cus_5" "user:5")⟩⟩
    else .error ⟨.Unknown, "no such dispute"⟩

/-- The example database: the customer cache knows `user:5`, `user:6` and `user:7`,
balances are listed for three attributions, every write succeeds. -/
def exampleDB : DB where
  ParseAttributionID := ParseAttributionID
  Values := Values
  GetStripeCustomerByAttributionID := fun _ a =>
    if a = "user:5" then .ok ⟨"cus_5", a, 1600000000, "USD"⟩
    else if a = "user:6" then .ok ⟨"cus_6", a, 1600000000, "USD"⟩
    else if a = "user:7" then .ok ⟨"cus_7", a, 1600000000, "USD"⟩
    else .error .ErrorNotFound
  GetStripeCustomer := fun _ _ => .error .ErrorNotFound
  CreateStripeCustomer := fun _ _ => none
  ListBalance := fun _ => .ok [⟨"team:42", 1234⟩, ⟨"user:5", 500⟩, ⟨"team:7", 300⟩]
  GetBalance := fun _ _ => .ok 1234
  InsertUsage := fun _ _ => none

/-- The example cost-center manager: no call fails, a new cost center has the
strategy `CostCenter_Other`. -/
def exampleCostCenterManager : CostCenterManager where
  getOrCreateFailure := fun _ _ => none
  newCostCenter := fun a => ⟨a, .CostCenter_Other, 0, 0, 500⟩
  updateFailure := fun _ _ => none
  incrementBillingCycle := fun _ a => .ok ⟨a, .CostCenter_Stripe, 1, 2, 0⟩

/-- The example service: blocking the user `u3` fails, every other block succeeds. -/
def exampleService : BillingService where
  conn := exampleDB
  stripeClient := exampleStripeClient
  ccManager := exampleCostCenterManager
  stripePrices := ⟨⟨"price_user_eur", "price_user_usd"⟩, ⟨"price_team_eur", "price_team_usd"⟩⟩
  teamsService := ⟨fun _ id => if id = "7" then .ok team7 else .error ⟨.NotFound, "no such team"⟩⟩
  userService := ⟨fun _ userId _ => if userId = "u3" then some ⟨.Unknown, "unavailable"⟩ else none⟩
  uuidNew := fun w => "usage-" ++ toString w.ledger.length

/-- The example service with a cost-center manager whose billing-cycle increment
fails, a database whose balance read fails and a processor whose usage update
fails. -/
def exampleServiceWithoutSync : BillingService :=
  { exampleService with
    conn := { exampleDB with GetBalance := fun _ _ => .error ⟨.Unknown, "unavailable"⟩ }
    stripeClient := { exampleStripeClient with UpdateUsage := fun _ _ => some ⟨.Unknown, "unavailable"⟩ }
    ccManager :=
      { exampleCostCenterManager with
        incrementBillingCycle := fun _ _ => .error ⟨.Unknown, "unavailable"⟩ } }

/-- A world with an empty ledger, no blocked user, no call made, and the cost
centers of `team:42` (processor billed) and `user:5` (processor billed). -/
def exampleWorld : World :=
  { costCenters := [⟨"team:42", .CostCenter_Stripe, 0, 0, 0⟩, ⟨"user:5", .CostCenter_Stripe, 0, 0, 0⟩]
    ledger := []
    blocked := []
    calls := [] }

/-- The example service with a database that lists one balance, of
9007199254741001 credit cents, for the attribution `team:42`. -/
def exampleServiceLargeBalance : BillingService :=
  { exampleService with
    conn := { exampleDB with ListBalance := fun _ => .ok [⟨"team:42", 9007199254741001⟩] } }

/-- A processor customer with the given id, attribution and preferred currency. -/
def customerWithCurrency (id attributionId currency : String) : Customer :=
  { customerOf id attributionId with
    Metadata := [(AttributionIDMetadataKey, attributionId), ("preferredCurrency", currency)] }

/-- The example service with a database whose customer cache cannot be read: both
lookups fail with an error that is not `db.ErrorNotFound`. -/
def exampleServiceCacheDown : BillingService :=
  { exampleService with
    conn :=
      { exampleDB with
        GetStripeCustomerByAttributionID := fun _ _ => .error (.other "connection refused")
        GetStripeCustomer := fun _ _ => .error (.other "connection refused") } }

/-! ## Arithmetic of amounts -/

theorem wrapInt64_eq_self (x : Int) (hlo : -2 ^ 63 ≤ x) (hhi : x < 2 ^ 63) : wrapInt64 x = x := by
  unfold wrapInt64
  norm_num at hlo hhi ⊢
  omega

theorem wrapInt64_add_wrap (a b : Int) : wrapInt64 (wrapInt64 a + b) = wrapInt64 (a + b) := by
  unfold wrapInt64
  norm_num
  omega

theorem foldl_wrapInt64 (lines : List InvoiceLineItem) (acc : Int) :
    lines.foldl (fun acc line => wrapInt64 (acc + line.Quantity)) (wrapInt64 acc)
      = wrapInt64 (acc + sumQuantities lines) := by
  induction lines generalizing acc with
  | nil => simp [sumQuantities]
  | cons line rest ih =>
    simp only [List.foldl_cons, wrapInt64_add_wrap, ih, sumQuantities, List.map_cons, List.sum_cons]
    congr 1
    ring

theorem creditsOnInvoice_eq (lines : List InvoiceLineItem) :
    creditsOnInvoice lines = wrapInt64 (sumQuantities lines) := by
  have h := foldl_wrapInt64 lines 0
  have h0 : wrapInt64 0 = 0 := by decide
  rw [h0] at h
  simpa [creditsOnInvoice] using h

theorem roundHalfEven_intCast (m : Int) : roundHalfEven (m : ℚ) = m := by
  simp [roundHalfEven]

theorem abs_roundHalfEven_sub_le (y : ℚ) : |(roundHalfEven y : ℚ) - y| ≤ 1 / 2 := by
  have h1 := Int.floor_le y
  have h2 := Int.lt_floor_add_one y
  unfold roundHalfEven
  rw [abs_le]
  split
  · constructor <;> linarith
  · split
    · push_cast; constructor <;> linarith
    · split
      · constructor <;> linarith
      · push_cast; constructor <;> linarith

theorem abs_intCast_lt (n : Int) (h : |n| < 2 ^ 53) : |(n : ℚ)| < 2 ^ 53 := by
  have : ((|n| : Int) : ℚ) < ((2 ^ 53 : Int) : ℚ) := by exact_mod_cast h
  rw [Int.cast_abs] at this
  norm_num at this ⊢
  exact this

theorem float64_intCast (n : Int) (h : |n| < 2 ^ 53) : float64 (n : ℚ) = n := by
  unfold float64
  by_cases h0 : (n : ℚ) = 0
  · simp [h0]
  · simp only [h0, if_false]
    have hpos : (0 : ℚ) < |(n : ℚ)| := abs_pos.mpr h0
    have hlt : |(n : ℚ)| < ((2 : ℕ) : ℚ) ^ (53 : ℤ) := by
      have := abs_intCast_lt n h
      norm_num at this ⊢
      exact this
    have hlog : Int.log 2 |(n : ℚ)| < 53 := (Int.lt_zpow_iff_log_lt (by norm_num) hpos).mp hlt
    obtain ⟨j, hj⟩ : ∃ j : ℕ, Int.log 2 |(n : ℚ)| - 52 = -(j : ℤ) :=
      ⟨(52 - Int.log 2 |(n : ℚ)|).toNat, by omega⟩
    rw [hj, zpow_neg, zpow_natCast, div_inv_eq_mul]
    have : ((n : ℚ) * 2 ^ j) = (((n * 2 ^ j : Int)) : ℚ) := by push_cast; ring
    rw [this, roundHalfEven_intCast]
    push_cast
    field_simp

theorem abs_float64_sub_le (x : ℚ) (h0 : x ≠ 0) (h : |x| < 2 ^ 47) :
    |float64 x - x| ≤ 1 / 128 := by
  unfold float64
  simp only [h0, if_false]
  have hpos : (0 : ℚ) < |x| := abs_pos.mpr h0
  have hlt : |x| < ((2 : ℕ) : ℚ) ^ (47 : ℤ) := by
    norm_num at h ⊢
    exact h
  have hlog : Int.log 2 |x| < 47 := (Int.lt_zpow_iff_log_lt (by norm_num) hpos).mp hlt
  set u : ℚ := (2 : ℚ) ^ (Int.log 2 |x| - 52) with hu
  have hupos : 0 < u := by positivity
  have hule : u ≤ 1 / 64 := by
    have : u ≤ (2 : ℚ) ^ (-6 : ℤ) := zpow_le_zpow_right₀ (by norm_num) (by omega)
    norm_num at this
    linarith
  have hr := abs_roundHalfEven_sub_le (x / u)
  have heq : (roundHalfEven (x / u) : ℚ) * u - x = ((roundHalfEven (x / u) : ℚ) - x / u) * u := by
    field_simp
  rw [heq, abs_mul, abs_of_pos hupos]
  calc |(roundHalfEven (x / u) : ℚ) - x / u| * u ≤ 1 / 2 * u := by
        exact mul_le_mul_of_nonneg_right hr hupos.le
    _ ≤ 1 / 128 := by linarith

theorem ToCredits_eq (cc : Int) (h : |cc| < 2 ^ 53) :
    ToCredits cc = float64 ((cc : ℚ) / 100) := by
  unfold ToCredits
  have h100 : float64 (100 : ℚ) = 100 := by
    have := float64_intCast 100 (by norm_num)
    simpa using this
  rw [float64_intCast cc h, h100]

theorem ceilCredits_eq_ceil (cc : Int) (h : |cc| < 2 ^ 53) :
    ceilCredits cc = Int.ceil ((cc : ℚ) / 100) := by
  unfold ceilCredits
  rw [ToCredits_eq cc h]
  obtain ⟨hlo, hhi⟩ := abs_lt.mp h
  have hk : (cc : ℚ) = 100 * ((cc / 100 : Int) : ℚ) + ((cc % 100 : Int) : ℚ) := by
    have := Int.ediv_add_emod cc 100
    exact_mod_cast this.symm
  have hr0 : 0 ≤ cc % 100 := Int.emod_nonneg cc (by norm_num)
  have hr1 : cc % 100 < 100 := Int.emod_lt_of_pos cc (by norm_num)
  by_cases hr : cc % 100 = 0
  · have hq : (cc : ℚ) / 100 = ((cc / 100 : Int) : ℚ) := by
      rw [hk, hr]; push_cast; ring
    have hb : |cc / 100| < 2 ^ 53 := by
      rw [abs_lt]
      constructor <;> omega
    rw [hq, float64_intCast _ hb]
  · have hr2 : (1 : ℚ) ≤ ((cc % 100 : Int) : ℚ) := by
      have : 1 ≤ cc % 100 := by omega
      exact_mod_cast this
    have hr3 : ((cc % 100 : Int) : ℚ) ≤ 99 := by
      have : cc % 100 ≤ 99 := by omega
      exact_mod_cast this
    have hq0 : (cc : ℚ) / 100 ≠ 0 := by
      intro h0
      have : (cc : ℚ) = 0 := by linarith
      have hcc : cc = 0 := by exact_mod_cast this
      rw [hcc] at hr
      exact hr rfl
    have hqlt : |(cc : ℚ) / 100| < 2 ^ 47 := by
      have hcq := abs_intCast_lt cc h
      rw [abs_div]
      norm_num at hcq ⊢
      linarith
    have herr := abs_le.mp (abs_float64_sub_le _ hq0 hqlt)
    have h1 : Int.ceil ((cc : ℚ) / 100) = cc / 100 + 1 := by
      rw [Int.ceil_eq_iff]
      push_cast
      constructor <;> linarith
    have h2 : Int.ceil (float64 ((cc : ℚ) / 100)) = cc / 100 + 1 := by
      rw [Int.ceil_eq_iff]
      push_cast
      constructor <;> linarith [herr.1, herr.2]
    rw [h1, h2]

theorem ceilCredits_large : ceilCredits 9007199254741001 = 90071992547410 := by
  unfold ceilCredits ToCredits
  have h100 : float64 (100 : ℚ) = 100 := by
    have := float64_intCast 100 (by norm_num)
    simpa using this
  have hlog : Int.log 2 |((9007199254741001 : Int) : ℚ)| = 53 := by
    have h1 : |((9007199254741001 : Int) : ℚ)| = ((9007199254741001 : ℕ) : ℚ) := by norm_num
    rw [h1, Int.log_natCast]
    have : Nat.log 2 9007199254741001 = 53 := by
      rw [Nat.log_eq_iff (Or.inl (by norm_num))]
      norm_num
    rw [this]
    rfl
  have hbig : float64 ((9007199254741001 : Int) : ℚ) = 9007199254741000 := by
    unfold float64
    rw [hlog]
    have hf : Int.floor ((9007199254741001 : ℚ) / 2) = 4503599627370500 := by
      rw [Int.floor_eq_iff]
      norm_num
    norm_num [roundHalfEven, hf]
  rw [hbig, h100]
  have hq : (9007199254741000 : ℚ) / 100 = ((90071992547410 : Int) : ℚ) := by norm_num
  rw [hq, float64_intCast _ (by norm_num), Int.ceil_intCast]

theorem float64_neg_two_pow_53 :
    float64 ((-9007199254740992 : Int) : ℚ) = ((-9007199254740992 : Int) : ℚ) := by
  have hlog : Int.log 2 |((-9007199254740992 : Int) : ℚ)| = 53 := by
    have h1 : |((-9007199254740992 : Int) : ℚ)| = ((9007199254740992 : ℕ) : ℚ) := by
      norm_num
    rw [h1, Int.log_natCast]
    have : Nat.log 2 9007199254740992 = 53 := by
      rw [Nat.log_eq_iff (Or.inl (by norm_num))]
      norm_num
    rw [this]
    rfl
  unfold float64
  rw [hlog]
  have hq : ((-9007199254740992 : Int) : ℚ) / (2 : ℚ) ^ ((53 : ℤ) - 52)
      = ((-4503599627370496 : Int) : ℚ) := by norm_num
  rw [hq, roundHalfEven_intCast]
  norm_num

theorem NewCreditCents_intCast (n : Int) : NewCreditCents (n : ℚ) = n := by
  unfold NewCreditCents int64OfFloat64
  split
  · exact Int.floor_intCast n
  · exact Int.ceil_intCast n

theorem NewCreditCents_float64_intCast (n : Int) (h : |n| < 2 ^ 53) :
    NewCreditCents (float64 (n : ℚ)) = n := by
  rw [float64_intCast n h, NewCreditCents_intCast]

theorem float64_neg_large :
    float64 ((-9007199254740993 : Int) : ℚ) = ((-9007199254740992 : Int) : ℚ) := by
  have hlog : Int.log 2 |((-9007199254740993 : Int) : ℚ)| = 53 := by
    have h1 : |((-9007199254740993 : Int) : ℚ)| = ((9007199254740993 : ℕ) : ℚ) := by
      norm_num
    rw [h1, Int.log_natCast]
    have : Nat.log 2 9007199254740993 = 53 := by
      rw [Nat.log_eq_iff (Or.inl (by norm_num))]
      norm_num
    rw [this]
    rfl
  unfold float64
  rw [hlog]
  have hf : Int.floor ((-9007199254740993 : ℚ) / 2) = -4503599627370497 := by
    rw [Int.floor_eq_iff]
    norm_num
  norm_num [roundHalfEven, hf]

theorem InsertUsage_of_none (s : BillingService) (w : World) (usage : Usage)
    (h : s.conn.InsertUsage w usage = none) :
    InsertUsage s w usage = (none, { w with ledger := w.ledger ++ [usage] }) := by
  simp [InsertUsage, h]

theorem InsertUsage_of_some (s : BillingService) (w : World) (usage : Usage) (err : Error)
    (h : s.conn.InsertUsage w usage = some err) :
    InsertUsage s w usage = (some err, w) := by
  simp [InsertUsage, h]

theorem IncrementBillingCycle_ledger (cm : CostCenterManager) (w : World) (a : AttributionID) :
    (cm.IncrementBillingCycle w a).2.ledger = w.ledger := by
  unfold CostCenterManager.IncrementBillingCycle
  split <;> rfl

theorem InternalComputeInvoiceUsage_ok (s : BillingService) (w : World) (invoice : Invoice)
    (attributionID : AttributionID) (lines : List InvoiceLineItem)
    (hattr : s.stripeClient.GetAttributionID invoice.Customer = .ok attributionID)
    (hlines : invoice.Lines = some lines) (hne : lines ≠ []) :
    InternalComputeInvoiceUsage s w invoice = .ok
      { ID := s.uuidNew w
        AttributionID := attributionID
        Description := "Invoice " ++ invoice.ID ++ " finalized in Stripe"
        CreditCents :=
          NewCreditCents (float64 ((wrapInt64 (-(creditsOnInvoice lines)) : Int) : ℚ))
        EffectiveTime := invoice.FinalizedAt
        Kind := UsageKind.InvoiceUsageKind
        Draft := false
        Metadata := none } := by
  simp [InternalComputeInvoiceUsage, hattr, hlines, hne]

theorem NewCreditCents_creditsOnInvoice (lines : List InvoiceLineItem)
    (hrange : |sumQuantities lines| < 2 ^ 53) :
    NewCreditCents (float64 ((wrapInt64 (-(creditsOnInvoice lines)) : Int) : ℚ))
      = -(sumQuantities lines) := by
  obtain ⟨hlo, hhi⟩ := abs_lt.mp hrange
  have h1 : wrapInt64 (sumQuantities lines) = sumQuantities lines :=
    wrapInt64_eq_self _ (by norm_num at hlo ⊢; omega) (by norm_num at hhi ⊢; omega)
  have h2 : wrapInt64 (-(sumQuantities lines)) = -(sumQuantities lines) :=
    wrapInt64_eq_self _ (by norm_num at hhi ⊢; omega) (by norm_num at hlo ⊢; omega)
  rw [creditsOnInvoice_eq, h1, h2]
  exact NewCreditCents_float64_intCast _ (by rw [abs_neg]; exact hrange)

theorem InternalComputeInvoiceUsage_no_lines (s : BillingService) (w : World) (invoice : Invoice)
    (attributionID : AttributionID)
    (hattr : s.stripeClient.GetAttributionID invoice.Customer = .ok attributionID)
    (hlines : invoice.Lines = none ∨ invoice.Lines = some []) :
    InternalComputeInvoiceUsage s w invoice
      = .error ⟨.Internal, "Invoice did not contain any lines."⟩ := by
  rcases hlines with h | h <;> simp [InternalComputeInvoiceUsage, hattr, h]

theorem InternalComputeInvoiceUsage_no_attribution (s : BillingService) (w : World)
    (invoice : Invoice) (err : Error)
    (hattr : s.stripeClient.GetAttributionID invoice.Customer = .error err) :
    InternalComputeInvoiceUsage s w invoice = .error err := by
  simp [InternalComputeInvoiceUsage, hattr]

theorem FinalizeInvoice_after_insert (s : BillingService) (w : World) (invoiceId : String)
    (invoice : Invoice) (usage : Usage) (hid : invoiceId ≠ "")
    (hinv : s.stripeClient.GetInvoiceWithCustomer w invoiceId = .ok invoice)
    (husage : InternalComputeInvoiceUsage s w invoice = .ok usage)
    (hins : s.conn.InsertUsage w usage = none) :
    (FinalizeInvoice s w invoiceId).1 = .ok ()
      ∧ (FinalizeInvoice s w invoiceId).2.ledger = w.ledger ++ [usage] := by
  unfold FinalizeInvoice
  simp only [hid, if_false, hinv, husage, InsertUsage_of_none s w usage hins]
  constructor
  · split <;> rfl
  · split <;> simp [UpdateUsage, IncrementBillingCycle_ledger]

/-- C1 (amended): for an invoice whose customer carries a valid attribution and which
has at least one line, `InternalComputeInvoiceUsage` builds a usage record of that
attribution, of kind `InvoiceUsageKind`, not a draft, effective at the
finalization time of the invoice, whose `CreditCents` is `NewCreditCents` of
minus the `int64` sum of the line quantities, which is minus the sum of the
quantities (as long as the sum is below `2^53` in absolute value, where `int64`
and `float64` hold it exactly); and `FinalizeInvoice` appends exactly this
record to the ledger when the insertion succeeds. -/
theorem invoice_usage_record (s : BillingService) (w : World) (invoice : Invoice)
    (attributionID : AttributionID) (lines : List InvoiceLineItem)
    (hattr : s.stripeClient.GetAttributionID invoice.Customer = .ok attributionID)
    (hlines : invoice.Lines = some lines) (hne : lines ≠ []) :
    ∃ usage, InternalComputeInvoiceUsage s w invoice = .ok usage
      ∧ usage.AttributionID = attributionID
      ∧ usage.Kind = UsageKind.InvoiceUsageKind
      ∧ usage.Draft = false
      ∧ usage.EffectiveTime = invoice.FinalizedAt
      ∧ usage.CreditCents
          = NewCreditCents (float64 ((wrapInt64 (-(creditsOnInvoice lines)) : Int) : ℚ))
      ∧ (|sumQuantities lines| < 2 ^ 53 → usage.CreditCents = -(sumQuantities lines))
      ∧ ∀ invoiceId, invoiceId ≠ "" →
          s.stripeClient.GetInvoiceWithCustomer w invoiceId = .ok invoice →
          s.conn.InsertUsage w usage = none →
          (FinalizeInvoice s w invoiceId).1 = .ok ()
            ∧ (FinalizeInvoice s w invoiceId).2.ledger = w.ledger ++ [usage] := by
  have hok := InternalComputeInvoiceUsage_ok s w invoice attributionID lines hattr hlines hne
  refine ⟨_, hok, rfl, rfl, rfl, rfl, rfl, ?_, ?_⟩
  · intro hrange
    exact NewCreditCents_creditsOnInvoice lines hrange
  · intro invoiceId hid hinv hins
    exact FinalizeInvoice_after_insert s w invoiceId invoice _ hid hinv hok hins

/-- C1 (witness): the invoice `inv_1` of attribution `team:42` with quantities 300
and 150 yields a record of `team:42` with `CreditCents = -450`, which is what
`FinalizeInvoice` appends to the empty ledger. -/
theorem invoice_usage_record_witness :
    ∃ usage, InternalComputeInvoiceUsage exampleService exampleWorld invoice1 = .ok usage
      ∧ usage.AttributionID = "team:42"
      ∧ usage.Kind = UsageKind.InvoiceUsageKind
      ∧ usage.Draft = false
      ∧ usage.EffectiveTime = 1700000000
      ∧ usage.CreditCents = -450
      ∧ (FinalizeInvoice exampleService exampleWorld "inv_1").2.ledger = [usage] := by
  obtain ⟨usage, hok, ha, hk, hd, he, _, hc, hf⟩ :=
    invoice_usage_record exampleService exampleWorld invoice1 "team:42" [⟨300⟩, ⟨150⟩]
      rfl rfl (by simp)
  refine ⟨usage, hok, ha, hk, hd, he, ?_, ?_⟩
  · rw [hc (by norm_num [sumQuantities])]
    norm_num [sumQuantities]
  · exact (hf "inv_1" (by decide) rfl rfl).2

/-- C1 (counterexample): for the line quantities `2^53` and 1 the `int64` sum
9007199254740993 is converted to the `float64` 9007199254740992, the same value
as for the sum `2^53`, and the record built has `CreditCents` equal to
-9007199254740992, which is not minus the sum of the quantities. -/
theorem invoice_usage_creditCents_rounds_large_sum :
    sumQuantities [⟨9007199254740992⟩, ⟨1⟩] = 9007199254740993
      ∧ float64 ((-9007199254740993 : Int) : ℚ) = float64 ((-9007199254740992 : Int) : ℚ)
      ∧ ∃ usage, InternalComputeInvoiceUsage exampleService exampleWorld invoice4 = .ok usage
          ∧ usage.CreditCents = -9007199254740992
          ∧ usage.CreditCents ≠ -(sumQuantities [⟨9007199254740992⟩, ⟨1⟩]) := by
  have hok := InternalComputeInvoiceUsage_ok exampleService exampleWorld invoice4 "team:42"
    [⟨9007199254740992⟩, ⟨1⟩] rfl rfl (by simp)
  have hsum : sumQuantities [⟨9007199254740992⟩, ⟨1⟩] = 9007199254740993 := by
    norm_num [sumQuantities]
  have hcredits : wrapInt64 (-(creditsOnInvoice [⟨9007199254740992⟩, ⟨1⟩]))
      = -9007199254740993 := by
    rw [creditsOnInvoice_eq, hsum]
    decide
  have hcents : NewCreditCents
      (float64 ((wrapInt64 (-(creditsOnInvoice [⟨9007199254740992⟩, ⟨1⟩])) : Int) : ℚ))
      = -9007199254740992 := by
    rw [hcredits, float64_neg_large, NewCreditCents_intCast]
  refine ⟨hsum, ?_, _, hok, hcents, ?_⟩
  · rw [float64_neg_large, float64_neg_two_pow_53]
  · show NewCreditCents
      (float64 ((wrapInt64 (-(creditsOnInvoice [⟨9007199254740992⟩, ⟨1⟩])) : Int) : ℚ))
      ≠ -(sumQuantities [⟨9007199254740992⟩, ⟨1⟩])
    rw [hcents, hsum]
    decide

theorem FinalizeInvoice_no_lines_unchanged (s : BillingService) (w : World) (invoiceId : String)
    (invoice : Invoice) (hid : invoiceId ≠ "")
    (hinv : s.stripeClient.GetInvoiceWithCustomer w invoiceId = .ok invoice)
    (hlines : invoice.Lines = none ∨ invoice.Lines = some []) :
    (∃ err, (FinalizeInvoice s w invoiceId).1 = .error err
        ∧ (∀ attributionID, s.stripeClient.GetAttributionID invoice.Customer = .ok attributionID →
            err = ⟨.Internal, "Invoice did not contain any lines."⟩)
        ∧ (∀ e, s.stripeClient.GetAttributionID invoice.Customer = .error e → err = e))
      ∧ (FinalizeInvoice s w invoiceId).2 = w := by
  cases hattr : s.stripeClient.GetAttributionID invoice.Customer with
  | error e =>
    have h := InternalComputeInvoiceUsage_no_attribution s w invoice e hattr
    simp [FinalizeInvoice, hid, hinv, h]
  | ok attributionID =>
    have h := InternalComputeInvoiceUsage_no_lines s w invoice attributionID hattr hlines
    simp [FinalizeInvoice, hid, hinv, h]

/-- C6: for an invoice with no line (line list absent or empty) whose customer
attribution resolves, `InternalComputeInvoiceUsage` reaches the check of the
lines and fails with `Internal`; `FinalizeInvoice` returns that error and leaves
the world unchanged, so that no record is inserted into the ledger. -/
theorem finalize_invoice_without_lines (s : BillingService) (w : World) (invoiceId : String)
    (invoice : Invoice) (attributionID : AttributionID) (hid : invoiceId ≠ "")
    (hinv : s.stripeClient.GetInvoiceWithCustomer w invoiceId = .ok invoice)
    (hattr : s.stripeClient.GetAttributionID invoice.Customer = .ok attributionID)
    (hlines : invoice.Lines = none ∨ invoice.Lines = some []) :
    InternalComputeInvoiceUsage s w invoice
        = .error ⟨.Internal, "Invoice did not contain any lines."⟩
      ∧ (FinalizeInvoice s w invoiceId).1
        = .error ⟨.Internal, "Invoice did not contain any lines."⟩
      ∧ (FinalizeInvoice s w invoiceId).2 = w
      ∧ (FinalizeInvoice s w invoiceId).2.ledger = w.ledger := by
  have h := InternalComputeInvoiceUsage_no_lines s w invoice attributionID hattr hlines
  have hrun : FinalizeInvoice s w invoiceId
      = (.error ⟨.Internal, "Invoice did not contain any lines."⟩, w) := by
    simp [FinalizeInvoice, hid, hinv, h]
  rw [hrun]
  exact ⟨h, rfl, rfl, rfl⟩

/-- C6 (witness): the invoices `inv_2` (empty line list) and `inv_3` (no line list)
of attribution `team:42` both make `FinalizeInvoice` fail with `Internal`, the
ledger staying empty. -/
theorem finalize_invoice_without_lines_witness :
    ((FinalizeInvoice exampleService exampleWorld "inv_2").1
        = .error ⟨.Internal, "Invoice did not contain any lines."⟩
      ∧ (FinalizeInvoice exampleService exampleWorld "inv_2").2.ledger = [])
      ∧ ((FinalizeInvoice exampleService exampleWorld "inv_3").1
        = .error ⟨.Internal, "Invoice did not contain any lines."⟩
      ∧ (FinalizeInvoice exampleService exampleWorld "inv_3").2.ledger = []) := by
  have h2 := finalize_invoice_without_lines exampleService exampleWorld "inv_2" invoice2
    "team:42" (by decide) rfl rfl (Or.inr rfl)
  have h3 := finalize_invoice_without_lines exampleService exampleWorld "inv_3" invoice3
    "team:42" (by decide) rfl rfl (Or.inl rfl)
  exact ⟨⟨h2.2.1, h2.2.2.2⟩, ⟨h3.2.1, h3.2.2.2⟩⟩

/-! ## Cost centers and the reconciled usage map -/

theorem findCostCenter_append_singleton (store : List CostCenter) (cc d : CostCenter)
    (a b : AttributionID) (hcc : cc.ID = a) (hnone : findCostCenter store a = none) :
    (findCostCenter (store ++ [cc]) b).getD d =
      if b = a then cc else (findCostCenter store b).getD d := by
  unfold findCostCenter at *
  rw [List.find?_append]
  by_cases hba : b = a
  · subst hba
    simp [hnone, hcc]
  · have : (cc.ID == b) = false := by
      simp [hcc]
      exact fun h => hba h.symm
    simp [hba, List.find?, this]

theorem GetOrCreateCostCenter_ok (cm : CostCenterManager) (w w1 : World) (a : AttributionID)
    (cc : CostCenter) (h : cm.GetOrCreateCostCenter w a = (.ok cc, w1)) :
    cc = costCenterOf cm w a ∧ w1.calls = w.calls ∧ w1.ledger = w.ledger
      ∧ w1.blocked = w.blocked ∧ ∀ b, costCenterOf cm w1 b = costCenterOf cm w b := by
  unfold CostCenterManager.GetOrCreateCostCenter at h
  cases hf : cm.getOrCreateFailure w a with
  | some err => simp [hf] at h
  | none =>
    cases hfind : findCostCenter w.costCenters a with
    | some found =>
      simp only [hf, hfind, Prod.mk.injEq, Except.ok.injEq] at h
      obtain ⟨hcc, hw⟩ := h
      subst hw
      subst hcc
      simp [costCenterOf, hfind]
    | none =>
      simp only [hf, hfind, Prod.mk.injEq, Except.ok.injEq] at h
      obtain ⟨hcc, hw⟩ := h
      subst hw
      subst hcc
      refine ⟨by simp [costCenterOf, hfind], rfl, rfl, rfl, ?_⟩
      intro b
      unfold costCenterOf
      simp only
      rw [findCostCenter_append_singleton _ _ _ a b rfl hfind]
      by_cases hba : b = a
      · subst hba
        simp [hfind]
      · simp [hba]

theorem balancesForStripeCostCentersLoop_ok (cm : CostCenterManager) (balances : List Balance) :
    ∀ (w w1 : World) (result out : List Balance),
      balancesForStripeCostCentersLoop cm balances w result = (.ok out, w1) →
      out = result ++ balances.filter (fun b =>
          decide ((costCenterOf cm w b.AttributionID).BillingStrategy
            = BillingStrategy.CostCenter_Stripe))
        ∧ w1.calls = w.calls ∧ w1.ledger = w.ledger ∧ w1.blocked = w.blocked
        ∧ ∀ a, costCenterOf cm w1 a = costCenterOf cm w a := by
  induction balances with
  | nil =>
    intro w w1 result out h
    simp only [balancesForStripeCostCentersLoop, Prod.mk.injEq, Except.ok.injEq] at h
    obtain ⟨h1, h2⟩ := h
    subst h1 h2
    simp
  | cons balance rest ih =>
    intro w w1 result out h
    unfold balancesForStripeCostCentersLoop at h
    cases hget : cm.GetOrCreateCostCenter w balance.AttributionID with
    | mk r w2 =>
      cases r with
      | error err => simp [hget] at h
      | ok costCenter =>
        obtain ⟨hcc, hcalls, hledger, hblocked, hsame⟩ :=
          GetOrCreateCostCenter_ok cm w w2 balance.AttributionID costCenter hget
        simp only [hget] at h
        have hpred : (fun b : Balance =>
            decide ((costCenterOf cm w2 b.AttributionID).BillingStrategy
              = BillingStrategy.CostCenter_Stripe))
            = (fun b : Balance =>
            decide ((costCenterOf cm w b.AttributionID).BillingStrategy
              = BillingStrategy.CostCenter_Stripe)) := by
          funext b
          rw [hsame]
        by_cases hs : costCenter.BillingStrategy = BillingStrategy.CostCenter_Stripe
        · simp only [hs, ne_eq, not_true_eq_false, if_false] at h
          obtain ⟨h1, h2, h3, h4, h5⟩ := ih w2 w1 _ out h
          rw [hpred] at h1
          refine ⟨?_, h2.trans hcalls, h3.trans hledger, h4.trans hblocked,
            fun a => (h5 a).trans (hsame a)⟩
          rw [h1, List.filter_cons]
          rw [hcc] at hs
          simp [hs]
        · simp only [hs, ne_eq, not_false_eq_true, if_true] at h
          obtain ⟨h1, h2, h3, h4, h5⟩ := ih w2 w1 _ out h
          rw [hpred] at h1
          refine ⟨?_, h2.trans hcalls, h3.trans hledger, h4.trans hblocked,
            fun a => (h5 a).trans (hsame a)⟩
          rw [h1, List.filter_cons]
          rw [hcc] at hs
          simp [hs]

theorem mem_mapSet (m : List (AttributionID × Int)) (k : AttributionID) (v : Int)
    (e : AttributionID × Int) (h : e ∈ mapSet m k v) : e ∈ m ∨ e = (k, v) := by
  unfold mapSet at h
  split at h
  · rw [List.mem_map] at h
    obtain ⟨x, hx, hxe⟩ := h
    split at hxe
    · exact Or.inr hxe.symm
    · exact Or.inl (hxe ▸ hx)
  · rw [List.mem_append, List.mem_singleton] at h
    exact h

theorem mem_foldl_mapSet (balances : List Balance) :
    ∀ (init : List (AttributionID × Int)) (e : AttributionID × Int),
      e ∈ balances.foldl
        (fun m balance => mapSet m balance.AttributionID (ceilCredits balance.CreditCents)) init →
      e ∈ init ∨ ∃ b ∈ balances, e = (b.AttributionID, ceilCredits b.CreditCents) := by
  induction balances with
  | nil => intro init e h; exact Or.inl h
  | cons b rest ih =>
    intro init e h
    rw [List.foldl_cons] at h
    rcases ih _ e h with h1 | ⟨b1, hb1, he⟩
    · rcases mem_mapSet _ _ _ _ h1 with h2 | h2
      · exact Or.inl h2
      · exact Or.inr ⟨b, List.mem_cons_self _ _, h2⟩
    · exact Or.inr ⟨b1, List.mem_cons_of_mem _ hb1, he⟩

theorem mem_creditCentsByAttribution (stripeBalances : List Balance) (e : AttributionID × Int)
    (h : e ∈ creditCentsByAttribution stripeBalances) :
    ∃ b ∈ stripeBalances, e = (b.AttributionID, ceilCredits b.CreditCents) := by
  rcases mem_foldl_mapSet stripeBalances [] e h with h1 | h1
  · simp at h1
  · exact h1

theorem ReconcileInvoices_calls (s : BillingService) (w w1 : World)
    (balances stripeBalances : List Balance)
    (hlist : s.conn.ListBalance w = .ok balances)
    (hok : balancesForStripeCostCenters s.ccManager w balances = (.ok stripeBalances, w1)) :
    (ReconcileInvoices s w).2.calls
      = w.calls ++ [Call.UpdateUsage (creditCentsByAttribution stripeBalances)] := by
  have hcalls : w1.calls = w.calls :=
    (balancesForStripeCostCentersLoop_ok s.ccManager balances w w1 [] stripeBalances hok).2.1
  unfold ReconcileInvoices
  simp only [hlist, hok, UpdateUsage]
  cases hu : s.stripeClient.UpdateUsage w1 (creditCentsByAttribution stripeBalances) <;>
    simp [hcalls]

theorem GetOrCreateCostCenter_succeeds (cm : CostCenterManager) (w : World) (a : AttributionID)
    (h : cm.getOrCreateFailure w a = none) :
    ∃ cc w1, cm.GetOrCreateCostCenter w a = (.ok cc, w1) := by
  unfold CostCenterManager.GetOrCreateCostCenter
  simp only [h]
  split <;> exact ⟨_, _, rfl⟩

theorem balancesForStripeCostCentersLoop_succeeds (cm : CostCenterManager)
    (balances : List Balance)
    (h : ∀ w0 : World, ∀ b ∈ balances, cm.getOrCreateFailure w0 b.AttributionID = none) :
    ∀ (w : World) (result : List Balance),
      ∃ out w1, balancesForStripeCostCentersLoop cm balances w result = (.ok out, w1) := by
  induction balances with
  | nil => intro w result; exact ⟨_, _, rfl⟩
  | cons balance rest ih =>
    intro w result
    obtain ⟨cc, w1, hget⟩ := GetOrCreateCostCenter_succeeds cm w balance.AttributionID
      (h w balance (List.mem_cons_self _ _))
    have ih1 := ih (fun w0 b hb => h w0 b (List.mem_cons_of_mem _ hb))
    unfold balancesForStripeCostCentersLoop
    simp only [hget]
    split
    · exact ih1 w1 result
    · exact ih1 w1 _

theorem ceilCredits_spec (cc : Int) (h : |cc| < 2 ^ 53) :
    ceilCredits cc = Int.ceil ((cc : ℚ) / 100)
      ∧ (cc : ℚ) / 100 ≤ (ceilCredits cc : ℚ)
      ∧ (ceilCredits cc : ℚ) < (cc : ℚ) / 100 + 1
      ∧ (∀ z : Int, (cc : ℚ) / 100 ≤ (z : ℚ) → ceilCredits cc ≤ z)
      ∧ ∀ k : Int, cc = 100 * k → ceilCredits cc = k := by
  have heq := ceilCredits_eq_ceil cc h
  rw [heq]
  refine ⟨rfl, Int.le_ceil _, Int.ceil_lt_add_one _, fun z hz => Int.ceil_le.mpr hz, ?_⟩
  intro k hk
  have : ((cc : ℚ) / 100) = ((k : Int) : ℚ) := by rw [hk]; push_cast; ring
  rw [this, Int.ceil_intCast]

theorem ceilCredits_1234 : ceilCredits 1234 = 13 := by
  rw [ceilCredits_eq_ceil 1234 (by norm_num), Int.ceil_eq_iff]
  norm_num

theorem ceilCredits_500 : ceilCredits 500 = 5 :=
  (ceilCredits_spec 500 (by norm_num)).2.2.2.2 5 (by norm_num)

theorem lookup_cons_eq (a k1 : AttributionID) (v1 : Int) (rest : List (AttributionID × Int)) :
    List.lookup a ((k1, v1) :: rest) = if a = k1 then some v1 else List.lookup a rest := by
  by_cases h : a = k1
  · subst h
    simp [List.lookup]
  · have hne : (a == k1) = false := by simpa using h
    simp [List.lookup, hne, h]

theorem lookup_map_mapSet (m : List (AttributionID × Int)) (k a : AttributionID) (v : Int) :
    (m.map (fun e => if e.1 == k then (k, v) else e)).lookup a
      = if a = k then (if m.any (fun e => e.1 == k) then some v else none)
        else m.lookup a := by
  induction m with
  | nil => simp
  | cons e rest ih =>
    obtain ⟨k1, v1⟩ := e
    rw [List.map_cons, List.any_cons]
    by_cases h1 : k1 = k
    · subst h1
      have hb : ((k1, v1).1 == k1) = true := by simp
      rw [if_pos hb, lookup_cons_eq, lookup_cons_eq, ih]
      by_cases h2 : a = k1
      · simp [h2]
      · simp [h2]
    · have hb : ¬ (((k1, v1).1 == k) = true) := by simpa using h1
      rw [if_neg hb, lookup_cons_eq, lookup_cons_eq, ih]
      by_cases h2 : a = k
      · subst h2
        have h3 : ¬ a = k1 := fun h => h1 h.symm
        have hb2 : (k1 == a) = false := by simpa using h1
        rw [if_neg h3, if_pos rfl, if_pos rfl]
        show _ = if (((k1, v1).1 == a) || rest.any fun e => e.1 == a) = true then some v else none
        rw [show ((k1, v1).1 == a) = false from hb2, Bool.false_or]
      · simp [h2]

theorem lookup_append_singleton (m : List (AttributionID × Int)) (k a : AttributionID)
    (v : Int) :
    (m ++ [(k, v)]).lookup a
      = match m.lookup a with
        | some x => some x
        | none => if a = k then some v else none := by
  induction m with
  | nil =>
    rw [List.nil_append, lookup_cons_eq]
    rfl
  | cons e rest ih =>
    obtain ⟨k1, v1⟩ := e
    rw [List.cons_append, lookup_cons_eq, lookup_cons_eq, ih]
    by_cases h3 : a = k1
    · simp [h3]
    · simp [h3]

theorem lookup_eq_none_of_any_eq_false (m : List (AttributionID × Int)) (k : AttributionID)
    (h : m.any (fun e => e.1 == k) = false) : m.lookup k = none := by
  induction m with
  | nil => rfl
  | cons e rest ih =>
    obtain ⟨k1, v1⟩ := e
    rw [List.any_cons, Bool.or_eq_false_iff] at h
    have hne : ¬ k = k1 := by
      have := h.1
      simp only [beq_eq_false_iff_ne, ne_eq] at this
      exact fun hk => this hk.symm
    rw [lookup_cons_eq, if_neg hne]
    exact ih h.2

theorem lookup_mapSet (m : List (AttributionID × Int)) (k a : AttributionID) (v : Int) :
    (mapSet m k v).lookup a = if a = k then some v else m.lookup a := by
  unfold mapSet
  by_cases hany : m.any (fun e => e.1 == k) = true
  · simp only [hany, if_true]
    rw [lookup_map_mapSet, hany]
    rfl
  · have hfalse : m.any (fun e => e.1 == k) = false := Bool.eq_false_iff.mpr hany
    simp only [hfalse, Bool.false_eq_true, if_false]
    rw [lookup_append_singleton]
    by_cases hak : a = k
    · subst hak
      simp [lookup_eq_none_of_any_eq_false m a hfalse]
    · simp only [hak, if_false]
      cases m.lookup a <;> rfl

theorem keys_mapSet (m : List (AttributionID × Int)) (k : AttributionID) (v : Int)
    (h : (m.map Prod.fst).Nodup) : ((mapSet m k v).map Prod.fst).Nodup := by
  unfold mapSet
  by_cases hany : m.any (fun e => e.1 == k) = true
  · simp only [hany, if_true, List.map_map]
    have : (Prod.fst ∘ fun e : AttributionID × Int => if e.1 == k then (k, v) else e)
        = Prod.fst := by
      funext e
      by_cases he : e.1 = k <;> simp [he]
    rw [this]
    exact h
  · have hfalse : m.any (fun e => e.1 == k) = false := Bool.eq_false_iff.mpr hany
    simp only [hfalse, Bool.false_eq_true, if_false, List.map_append, List.map_cons,
      List.map_nil]
    rw [List.nodup_append]
    refine ⟨h, List.nodup_singleton k, ?_⟩
    intro x hx hk
    rw [List.mem_singleton] at hk
    subst hk
    rw [List.mem_map] at hx
    obtain ⟨e, he, hex⟩ := hx
    have : m.any (fun e => e.1 == x) = true :=
      List.any_eq_true.mpr ⟨e, he, by simp [hex]⟩
    rw [hfalse] at this
    exact Bool.false_ne_true this

theorem foldl_mapSet_spec (balances : List Balance) :
    ∀ init : List (AttributionID × Int), (init.map Prod.fst).Nodup →
      ((balances.foldl
          (fun m balance => mapSet m balance.AttributionID (ceilCredits balance.CreditCents))
          init).map Prod.fst).Nodup
        ∧ ∀ a, (balances.foldl
            (fun m balance => mapSet m balance.AttributionID (ceilCredits balance.CreditCents))
            init).lookup a
          = match balances.reverse.find? (fun b => b.AttributionID == a) with
            | some b => some (ceilCredits b.CreditCents)
            | none => init.lookup a := by
  induction balances with
  | nil => intro init h; exact ⟨h, fun a => rfl⟩
  | cons b rest ih =>
    intro init h
    obtain ⟨hnd, hlk⟩ := ih (mapSet init b.AttributionID (ceilCredits b.CreditCents))
      (keys_mapSet init _ _ h)
    refine ⟨hnd, ?_⟩
    intro a
    rw [List.foldl_cons, hlk a, List.reverse_cons, List.find?_append]
    cases hrest : rest.reverse.find? (fun b => b.AttributionID == a) with
    | some b1 => rfl
    | none =>
      simp only [Option.none_or, lookup_mapSet]
      by_cases hab : a = b.AttributionID
      · subst hab
        simp
      · have hne : (b.AttributionID == a) = false := by
          simp only [beq_eq_false_iff_ne, ne_eq]
          exact fun hk => hab hk.symm
        simp [hab, hne]

theorem creditCentsByAttribution_spec (stripeBalances : List Balance) :
    ((creditCentsByAttribution stripeBalances).map Prod.fst).Nodup
      ∧ ∀ a, (creditCentsByAttribution stripeBalances).lookup a
          = (stripeBalances.reverse.find? (fun b => b.AttributionID == a)).map
              (fun b => ceilCredits b.CreditCents) := by
  obtain ⟨hnd, hlk⟩ := foldl_mapSet_spec stripeBalances [] List.nodup_nil
  refine ⟨hnd, ?_⟩
  intro a
  have := hlk a
  unfold creditCentsByAttribution
  rw [this]
  cases stripeBalances.reverse.find? (fun b => b.AttributionID == a) <;> rfl

/-- C2: when the balances are listed and every cost-center lookup succeeds,
`balancesForStripeCostCenters` returns exactly the balances whose cost center has
the strategy `CostCenter_Stripe`, in input order; the one call `ReconcileInvoices`
makes is the usage update with the map built from them, and every attribution of
that map has a cost center of strategy `CostCenter_Stripe`.  The lookups succeed,
and the function returns, whenever the cost-center manager fails on none of the
attributions. -/
theorem reconcile_pushes_only_stripe_cost_centers (s : BillingService) (w : World)
    (balances : List Balance) (hlist : s.conn.ListBalance w = .ok balances) :
    (∀ stripeBalances w1,
        balancesForStripeCostCenters s.ccManager w balances = (.ok stripeBalances, w1) →
        stripeBalances = balances.filter (fun b =>
            decide ((costCenterOf s.ccManager w b.AttributionID).BillingStrategy
              = BillingStrategy.CostCenter_Stripe))
          ∧ (ReconcileInvoices s w).2.calls
              = w.calls ++ [Call.UpdateUsage (creditCentsByAttribution stripeBalances)]
          ∧ ∀ a q, (a, q) ∈ creditCentsByAttribution stripeBalances →
              (costCenterOf s.ccManager w a).BillingStrategy = BillingStrategy.CostCenter_Stripe)
      ∧ ((∀ w0 : World, ∀ b ∈ balances,
            s.ccManager.getOrCreateFailure w0 b.AttributionID = none) →
          ∃ w1, balancesForStripeCostCenters s.ccManager w balances
            = (.ok (balances.filter (fun b =>
                decide ((costCenterOf s.ccManager w b.AttributionID).BillingStrategy
                  = BillingStrategy.CostCenter_Stripe))), w1)) := by
  constructor
  · intro stripeBalances w1 hok
    have hfilter := (balancesForStripeCostCentersLoop_ok s.ccManager balances w w1 []
      stripeBalances hok).1
    rw [List.nil_append] at hfilter
    refine ⟨hfilter, ReconcileInvoices_calls s w w1 balances stripeBalances hlist hok, ?_⟩
    intro a q hmem
    obtain ⟨b, hb, he⟩ := mem_creditCentsByAttribution stripeBalances (a, q) hmem
    rw [hfilter, List.mem_filter] at hb
    have ha : a = b.AttributionID := (Prod.mk.inj he).1
    rw [ha]
    exact of_decide_eq_true hb.2
  · intro hcc
    obtain ⟨out, w1, hok⟩ :=
      balancesForStripeCostCentersLoop_succeeds s.ccManager balances hcc w []
    have hfilter := (balancesForStripeCostCentersLoop_ok s.ccManager balances w w1 [] out hok).1
    rw [List.nil_append] at hfilter
    exact ⟨w1, by rw [← hfilter]; exact hok⟩

/-- C2 (witness): of the three listed balances `team:42`, `user:5` and `team:7`, the
first two have a processor-billed cost center; they are what
`balancesForStripeCostCenters` returns, and the map pushed holds just these two
attributions. -/
theorem reconcile_pushes_only_stripe_cost_centers_witness :
    (balancesForStripeCostCenters exampleService.ccManager exampleWorld
        [⟨"team:42", 1234⟩, ⟨"user:5", 500⟩, ⟨"team:7", 300⟩]).1
      = .ok [⟨"team:42", 1234⟩, ⟨"user:5", 500⟩]
      ∧ (ReconcileInvoices exampleService exampleWorld).2.calls
        = [Call.UpdateUsage [("team:42", 13), ("user:5", 5)]] := by
  have h := (reconcile_pushes_only_stripe_cost_centers exampleService exampleWorld
    [⟨"team:42", 1234⟩, ⟨"user:5", 500⟩, ⟨"team:7", 300⟩] rfl).1
    [⟨"team:42", 1234⟩, ⟨"user:5", 500⟩] _ rfl
  refine ⟨rfl, ?_⟩
  rw [h.2.1]
  simp [creditCentsByAttribution, mapSet, ceilCredits_1234, ceilCredits_500, exampleWorld]

/-- C7 (amended): the map `ReconcileInvoices` pushes has one entry per attribution of
the processor-billed balances, whose quantity is `int64(math.Ceil(ToCredits))`
of the balance listed last for that attribution, and `FinalizeInvoice` pushes the
same expression of the balance read after the insertion; for a balance below
`2^53` credit cents in absolute value this quantity is the ceiling of the
balance in credits (cents/100): not less than it, exceeding it by less than one,
the least such integer, and the balance itself when it is a whole number of
credits. -/
theorem pushed_quantity_is_ceiling (s : BillingService) (w : World) :
    (∀ balances stripeBalances w1, s.conn.ListBalance w = .ok balances →
        balancesForStripeCostCenters s.ccManager w balances = (.ok stripeBalances, w1) →
        ∃ m, (ReconcileInvoices s w).2.calls = w.calls ++ [Call.UpdateUsage m]
          ∧ (m.map Prod.fst).Nodup
          ∧ (∀ a, m.lookup a
              = (stripeBalances.reverse.find? (fun b => b.AttributionID == a)).map
                  (fun b => ceilCredits b.CreditCents))
          ∧ ∀ a q, (a, q) ∈ m →
              ∃ b ∈ stripeBalances, b.AttributionID = a ∧ q = ceilCredits b.CreditCents)
      ∧ (∀ invoiceId invoice usage newBalance, invoiceId ≠ "" →
          s.stripeClient.GetInvoiceWithCustomer w invoiceId = .ok invoice →
          InternalComputeInvoiceUsage s w invoice = .ok usage →
          s.conn.InsertUsage w usage = none →
          s.conn.GetBalance
              (s.ccManager.IncrementBillingCycle { w with ledger := w.ledger ++ [usage] }
                usage.AttributionID).2 usage.AttributionID = .ok newBalance →
          (FinalizeInvoice s w invoiceId).2.calls
            = w.calls ++ [Call.IncrementBillingCycle usage.AttributionID,
                Call.UpdateUsage [(usage.AttributionID, ceilCredits newBalance)]])
      ∧ ∀ cc : Int, |cc| < 2 ^ 53 →
          ceilCredits cc = Int.ceil ((cc : ℚ) / 100)
            ∧ (cc : ℚ) / 100 ≤ (ceilCredits cc : ℚ)
            ∧ (ceilCredits cc : ℚ) < (cc : ℚ) / 100 + 1
            ∧ (∀ z : Int, (cc : ℚ) / 100 ≤ (z : ℚ) → ceilCredits cc ≤ z)
            ∧ ∀ k : Int, cc = 100 * k → ceilCredits cc = k := by
  refine ⟨?_, ?_, ceilCredits_spec⟩
  · intro balances stripeBalances w1 hlist hok
    obtain ⟨hnd, hlk⟩ := creditCentsByAttribution_spec stripeBalances
    refine ⟨creditCentsByAttribution stripeBalances,
      ReconcileInvoices_calls s w w1 balances stripeBalances hlist hok, hnd, hlk, ?_⟩
    intro a q hmem
    obtain ⟨b, hb, he⟩ := mem_creditCentsByAttribution stripeBalances (a, q) hmem
    exact ⟨b, hb, (Prod.mk.inj he).1.symm, (Prod.mk.inj he).2⟩
  · intro invoiceId invoice usage newBalance hid hinv husage hins hbal
    unfold FinalizeInvoice
    simp only [hid, if_false, hinv, husage, InsertUsage_of_none s w usage hins, hbal, UpdateUsage]
    unfold CostCenterManager.IncrementBillingCycle
    split <;> simp

/-- C7 (witness): with the balances 1234 and 500 credit cents of the processor-billed
`team:42` and `user:5`, the map pushed holds 13 for `team:42`, 5 for `user:5`
and no entry for `team:7`, whose cost center is not processor billed. -/
theorem pushed_quantity_is_ceiling_witness :
    ∃ m, (ReconcileInvoices exampleService exampleWorld).2.calls = [Call.UpdateUsage m]
      ∧ m.lookup "team:42" = some 13
      ∧ m.lookup "user:5" = some 5
      ∧ m.lookup "team:7" = none
      ∧ ((1234 : ℚ) / 100 ≤ ((13 : Int) : ℚ) ∧ ((13 : Int) : ℚ) < (1234 : ℚ) / 100 + 1) := by
  obtain ⟨hrec, _, hceil⟩ := pushed_quantity_is_ceiling exampleService exampleWorld
  obtain ⟨m, hcalls, _, hlk, _⟩ := hrec [⟨"team:42", 1234⟩, ⟨"user:5", 500⟩, ⟨"team:7", 300⟩]
    [⟨"team:42", 1234⟩, ⟨"user:5", 500⟩] _ rfl rfl
  have h13 := hceil 1234 (by norm_num)
  rw [ceilCredits_1234] at h13
  refine ⟨m, hcalls, ?_, ?_, ?_, ?_⟩
  · rw [hlk]
    simp [ceilCredits_1234]
  · rw [hlk]
    simp [ceilCredits_500]
  · rw [hlk]
    simp
  · exact ⟨by simpa using h13.2.1, by simpa using h13.2.2.1⟩

/-- C7 (counterexample): for a balance of 9007199254741001 credit cents, which is
above `2^53`, the conversion to `float64` rounds to 9007199254741000 and
`ReconcileInvoices` pushes 90071992547410, which is less than the balance in
credits, 90071992547410.01, and is not its ceiling. -/
theorem pushed_quantity_under_reports_large_balance :
    exampleServiceLargeBalance.conn.ListBalance exampleWorld
        = .ok [⟨"team:42", 9007199254741001⟩]
      ∧ (ReconcileInvoices exampleServiceLargeBalance exampleWorld).2.calls
        = [Call.UpdateUsage [("team:42", 90071992547410)]]
      ∧ ceilCredits 9007199254741001 = 90071992547410
      ∧ ((90071992547410 : Int) : ℚ) < ((9007199254741001 : Int) : ℚ) / 100
      ∧ ceilCredits 9007199254741001 ≠ Int.ceil (((9007199254741001 : Int) : ℚ) / 100) := by
  have hcalls := ReconcileInvoices_calls exampleServiceLargeBalance exampleWorld _
    [⟨"team:42", 9007199254741001⟩] [⟨"team:42", 9007199254741001⟩] rfl rfl
  have hceil : Int.ceil (((9007199254741001 : Int) : ℚ) / 100) = 90071992547411 := by
    rw [Int.ceil_eq_iff]
    norm_num
  refine ⟨rfl, ?_, ceilCredits_large, by norm_num, ?_⟩
  · rw [hcalls]
    simp [creditCentsByAttribution, mapSet, ceilCredits_large, exampleWorld]
  · rw [ceilCredits_large, hceil]
    decide

/-! ## Subscriptions -/

theorem storeStripeCustomerAndRespond_calls (s : BillingService) (w : World) (cus : Customer)
    (a : AttributionID) :
    ∃ row, (storeStripeCustomerAndRespond s w cus a).2.calls
      = w.calls ++ [Call.CreateStripeCustomer row] := by
  refine ⟨⟨cus.ID, a, cus.Created, mapIndex cus.Metadata PreferredCurrencyMetadataKey⟩, ?_⟩
  unfold storeStripeCustomerAndRespond storeStripeCustomer CreateStripeCustomerRow
  cases h : s.conn.CreateStripeCustomer w
    ⟨cus.ID, a, cus.Created, mapIndex cus.Metadata PreferredCurrencyMetadataKey⟩ <;> rfl

theorem GetStripeCustomer_calls (s : BillingService) (w : World) (identifier : Identifier) :
    (GetStripeCustomer s w identifier).2.calls = w.calls
      ∨ ∃ row, (GetStripeCustomer s w identifier).2.calls
          = w.calls ++ [Call.CreateStripeCustomer row] := by
  unfold GetStripeCustomer
  split
  · split
    · exact Or.inl rfl
    · split
      · split
        · exact Or.inl rfl
        · exact Or.inr (storeStripeCustomerAndRespond_calls _ _ _ _)
      · exact Or.inl rfl
      · exact Or.inl rfl
  · split
    · exact Or.inl rfl
    · split
      · split
        · exact Or.inl rfl
        · split
          · exact Or.inl rfl
          · exact Or.inr (storeStripeCustomerAndRespond_calls _ _ _ _)
      · exact Or.inl rfl
      · exact Or.inl rfl
  · exact Or.inl rfl

theorem GetStripeCustomer_filter_calls (s : BillingService) (w : World)
    (identifier : Identifier) :
    (GetStripeCustomer s w identifier).2.calls.filter Call.isTryHoldAmount
        = w.calls.filter Call.isTryHoldAmount
      ∧ (GetStripeCustomer s w identifier).2.calls.filter Call.isCreateSubscription
        = w.calls.filter Call.isCreateSubscription := by
  rcases GetStripeCustomer_calls s w identifier with h | ⟨row, h⟩ <;> rw [h] <;>
    simp [List.filter_append, Call.isTryHoldAmount, Call.isCreateSubscription]

theorem find?_ne_canceled_isSome (subs : List Subscription)
    (h : ∃ sub ∈ subs, sub.Status ≠ "canceled") :
    ∃ sub, subs.find? (fun sub => sub.Status != "canceled") = some sub := by
  obtain ⟨sub, hmem, hne⟩ := h
  cases hf : subs.find? (fun sub => sub.Status != "canceled") with
  | some found => exact ⟨found, rfl⟩
  | none =>
    rw [List.find?_eq_none] at hf
    have := hf sub hmem
    simp [hne] at this

theorem find?_ne_canceled_eq_none (subs : List Subscription)
    (h : ∀ sub ∈ subs, sub.Status = "canceled") :
    subs.find? (fun sub => sub.Status != "canceled") = none := by
  rw [List.find?_eq_none]
  intro sub hmem
  simp [h sub hmem]

/-- C3: when the customer fetched again from the processor has a subscription whose
status is not `canceled`, `CreateStripeSubscription` fails with `AlreadyExists`;
the world is left as it was after the default payment method was set, so that
neither an authorization hold nor a subscription creation is among the calls
made. -/
theorem create_subscription_refused_when_subscribed (s : BillingService) (w w1 : World)
    (attributionId setupIntentId : String) (attributionID : AttributionID)
    (customer : StripeCustomer) (stripeCustomer : Customer)
    (hparse : s.conn.ParseAttributionID attributionId = .ok attributionID)
    (hcus : GetStripeCustomer s w (.AttributionId attributionID) = (.ok customer, w1))
    (hpay : s.stripeClient.SetDefaultPaymentForCustomer w1 customer.Id setupIntentId = none)
    (hget : s.stripeClient.GetCustomer
        { w1 with calls := w1.calls
            ++ [Call.SetDefaultPaymentForCustomer customer.Id setupIntentId] }
        customer.Id = .ok stripeCustomer)
    (hsub : ∃ sub ∈ stripeCustomer.Subscriptions, sub.Status ≠ "canceled") :
    (∃ err, (CreateStripeSubscription s w attributionId setupIntentId).1 = .error err
        ∧ err.code = Code.AlreadyExists)
      ∧ (CreateStripeSubscription s w attributionId setupIntentId).2
        = { w1 with calls := w1.calls
              ++ [Call.SetDefaultPaymentForCustomer customer.Id setupIntentId] }
      ∧ (CreateStripeSubscription s w attributionId setupIntentId).2.calls.filter
          Call.isTryHoldAmount = w.calls.filter Call.isTryHoldAmount
      ∧ (CreateStripeSubscription s w attributionId setupIntentId).2.calls.filter
          Call.isCreateSubscription = w.calls.filter Call.isCreateSubscription := by
  obtain ⟨sub, hfind⟩ := find?_ne_canceled_isSome stripeCustomer.Subscriptions hsub
  have hframe := GetStripeCustomer_filter_calls s w (.AttributionId attributionID)
  rw [hcus] at hframe
  have hrun : CreateStripeSubscription s w attributionId setupIntentId
      = (.error ⟨.AlreadyExists,
          "Customer (" ++ attributionID ++ ") already has an active subscription ("
            ++ sub.ID ++ ")"⟩,
        { w1 with calls := w1.calls
            ++ [Call.SetDefaultPaymentForCustomer customer.Id setupIntentId] }) := by
    simp only [CreateStripeSubscription, hparse, hcus, SetDefaultPaymentForCustomer, hpay, hget,
      hfind]
  rw [hrun]
  refine ⟨⟨_, rfl, rfl⟩, rfl, ?_, ?_⟩
  · simpa [List.filter_append, Call.isTryHoldAmount] using hframe.1
  · simpa [List.filter_append, Call.isCreateSubscription] using hframe.2

/-- C3 (witness): the customer `cus_5` of `user:5` has an active subscription;
creating one more is refused with `AlreadyExists` and the only call made sets the
default payment method. -/
theorem create_subscription_refused_when_subscribed_witness :
    (∃ err, (CreateStripeSubscription exampleService exampleWorld "user:5" "seti_1").1
        = .error err ∧ err.code = Code.AlreadyExists)
      ∧ (CreateStripeSubscription exampleService exampleWorld "user:5" "seti_1").2.calls
        = [Call.SetDefaultPaymentForCustomer "cus_5" "seti_1"] := by
  obtain ⟨herr, hw, _, _⟩ :=
    create_subscription_refused_when_subscribed exampleService exampleWorld exampleWorld
      "user:5" "seti_1" "user:5" ⟨"cus_5", "USD"⟩ (customer5 "active") rfl rfl rfl rfl
      ⟨⟨"sub_1", "active", "price_1"⟩, by simp [customer5], by decide⟩
  refine ⟨herr, ?_⟩
  rw [hw]
  rfl

theorem isAutomaticTaxSupported_iff (stripeCustomer : Customer) :
    isAutomaticTaxSupported stripeCustomer = true
      ↔ ∃ tax, stripeCustomer.Tax = some tax ∧ tax.AutomaticTax = "supported" := by
  unfold isAutomaticTaxSupported
  cases h : stripeCustomer.Tax with
  | none => simp
  | some tax => simp

/-- C10: once the customer has been fetched again without a blocking subscription and
a price has been resolved, `CreateStripeSubscription` places the hold of 1000;
whenever the result of the hold is not `PaymentHoldResultSucceeded` (whatever
error came with it) the call fails with `InvalidArgument` and no subscription
creation is among the calls; when the hold succeeds the subscription is created
with the tax flag `isAutomaticTaxSupported`, the call succeeds exactly when that
creation does (whatever the tax status), and the flag is true exactly when the
tax status of the customer is `supported`. -/
theorem create_subscription_hold_and_tax (s : BillingService) (w w1 : World)
    (attributionId setupIntentId : String) (attributionID : AttributionID)
    (customer : StripeCustomer) (stripeCustomer : Customer) (priceID : String)
    (hparse : s.conn.ParseAttributionID attributionId = .ok attributionID)
    (hcus : GetStripeCustomer s w (.AttributionId attributionID) = (.ok customer, w1))
    (hpay : s.stripeClient.SetDefaultPaymentForCustomer w1 customer.Id setupIntentId = none)
    (hget : s.stripeClient.GetCustomer
        { w1 with calls := w1.calls
            ++ [Call.SetDefaultPaymentForCustomer customer.Id setupIntentId] }
        customer.Id = .ok stripeCustomer)
    (hnone : ∀ sub ∈ stripeCustomer.Subscriptions, sub.Status = "canceled")
    (hprice : getPriceIdentifier attributionID stripeCustomer s = .ok priceID) :
    (∀ result err,
        s.stripeClient.TryHoldAmount
            { w1 with calls := w1.calls
                ++ [Call.SetDefaultPaymentForCustomer customer.Id setupIntentId] }
            stripeCustomer 1000 = (result, err) →
        result ≠ PaymentHoldResult.PaymentHoldResultSucceeded →
        (∃ e, (CreateStripeSubscription s w attributionId setupIntentId).1 = .error e
            ∧ e.code = Code.InvalidArgument)
          ∧ (CreateStripeSubscription s w attributionId setupIntentId).2.calls
            = w1.calls ++ [Call.SetDefaultPaymentForCustomer customer.Id setupIntentId]
                ++ [Call.TryHoldAmount stripeCustomer.ID 1000]
          ∧ (CreateStripeSubscription s w attributionId setupIntentId).2.calls.filter
              Call.isCreateSubscription = w.calls.filter Call.isCreateSubscription)
      ∧ (∀ err,
          s.stripeClient.TryHoldAmount
              { w1 with calls := w1.calls
                  ++ [Call.SetDefaultPaymentForCustomer customer.Id setupIntentId] }
              stripeCustomer 1000 = (PaymentHoldResult.PaymentHoldResultSucceeded, err) →
          (CreateStripeSubscription s w attributionId setupIntentId).2.calls
              = w1.calls ++ [Call.SetDefaultPaymentForCustomer customer.Id setupIntentId]
                  ++ [Call.TryHoldAmount stripeCustomer.ID 1000]
                  ++ [Call.CreateSubscription stripeCustomer.ID priceID
                        (isAutomaticTaxSupported stripeCustomer)]
            ∧ (∀ subscription,
                s.stripeClient.CreateSubscription
                    { w1 with calls := w1.calls
                        ++ [Call.SetDefaultPaymentForCustomer customer.Id setupIntentId]
                        ++ [Call.TryHoldAmount stripeCustomer.ID 1000] }
                    stripeCustomer.ID priceID (isAutomaticTaxSupported stripeCustomer)
                  = .ok subscription →
                (CreateStripeSubscription s w attributionId setupIntentId).1
                  = .ok subscription.ID)
            ∧ (∀ e,
                s.stripeClient.CreateSubscription
                    { w1 with calls := w1.calls
                        ++ [Call.SetDefaultPaymentForCustomer customer.Id setupIntentId]
                        ++ [Call.TryHoldAmount stripeCustomer.ID 1000] }
                    stripeCustomer.ID priceID (isAutomaticTaxSupported stripeCustomer)
                  = .error e →
                ∃ e1, (CreateStripeSubscription s w attributionId setupIntentId).1 = .error e1
                  ∧ e1.code = Code.Internal))
      ∧ (isAutomaticTaxSupported stripeCustomer = true
          ↔ ∃ tax, stripeCustomer.Tax = some tax ∧ tax.AutomaticTax = "supported") := by
  have hfind := find?_ne_canceled_eq_none stripeCustomer.Subscriptions hnone
  have hframe := (GetStripeCustomer_filter_calls s w (.AttributionId attributionID)).2
  rw [hcus] at hframe
  refine ⟨?_, ?_, isAutomaticTaxSupported_iff stripeCustomer⟩
  · intro result err hhold hres
    have hrun : CreateStripeSubscription s w attributionId setupIntentId
        = (.error ⟨.InvalidArgument,
            "The provided payment method is invalid. Please provide working credit card information to proceed."⟩,
          { w1 with calls := w1.calls
              ++ [Call.SetDefaultPaymentForCustomer customer.Id setupIntentId]
              ++ [Call.TryHoldAmount stripeCustomer.ID 1000] }) := by
      simp only [CreateStripeSubscription, hparse, hcus, SetDefaultPaymentForCustomer, hpay,
        hget, hfind, hprice, TryHoldAmount, hhold]
      simp [hres]
    rw [hrun]
    refine ⟨⟨_, rfl, rfl⟩, rfl, ?_⟩
    simpa [List.filter_append, Call.isCreateSubscription] using hframe
  · intro err hhold
    have hrun : CreateStripeSubscription s w attributionId setupIntentId
        = match CreateSubscription s
            { w1 with calls := w1.calls
                ++ [Call.SetDefaultPaymentForCustomer customer.Id setupIntentId]
                ++ [Call.TryHoldAmount stripeCustomer.ID 1000] }
            stripeCustomer.ID priceID (isAutomaticTaxSupported stripeCustomer) with
          | (.error _, w4) =>
            (.error ⟨.Internal,
              "Failed to create subscription with customer ID " ++ customer.Id⟩, w4)
          | (.ok subscription, w4) => (.ok subscription.ID, w4) := by
      simp only [CreateStripeSubscription, hparse, hcus, SetDefaultPaymentForCustomer, hpay,
        hget, hfind, hprice, TryHoldAmount, hhold]
      simp
    rw [hrun]
    unfold CreateSubscription
    refine ⟨?_, ?_, ?_⟩
    · cases hc : s.stripeClient.CreateSubscription
          { w1 with calls := w1.calls
              ++ [Call.SetDefaultPaymentForCustomer customer.Id setupIntentId]
              ++ [Call.TryHoldAmount stripeCustomer.ID 1000] }
          stripeCustomer.ID priceID (isAutomaticTaxSupported stripeCustomer) <;> simp
    · intro subscription hc
      rw [hc]
    · intro e hc
      rw [hc]
      exact ⟨_, rfl, rfl⟩

/-- C10 (witness): the hold fails for the customer `cus_7` of `user:7`; the call fails
with `InvalidArgument` after the default payment method was set and the hold was
tried, and no subscription is created. -/
theorem create_subscription_hold_and_tax_witness :
    (∃ e, (CreateStripeSubscription exampleService exampleWorld "user:7" "seti_1").1 = .error e
        ∧ e.code = Code.InvalidArgument)
      ∧ (CreateStripeSubscription exampleService exampleWorld "user:7" "seti_1").2.calls
        = [Call.SetDefaultPaymentForCustomer "cus_7" "seti_1", Call.TryHoldAmount "cus_7" 1000] := by
  have h := (create_subscription_hold_and_tax exampleService exampleWorld exampleWorld
      "user:7" "seti_1" "user:7" ⟨"cus_7", "USD"⟩
      { customerOf "cus_7" "user:6" with Subscriptions := [⟨"sub_0", "canceled", "price_1"⟩] }
      "price_user_usd" rfl rfl rfl rfl (by simp) rfl).1
    PaymentHoldResult.PaymentHoldResultFailed (some ⟨.Unknown, "card declined"⟩) rfl
    (by decide)
  exact ⟨h.1, h.2.1⟩

/-! ## Disputes -/

theorem blockUsers_spec (s : BillingService) (disputeId : String) (userIDs : List String) :
    ∀ (w : World) (errs : List Error),
      ∃ l : List Call,
        (blockUsers s disputeId userIDs w errs).2.calls = w.calls ++ l
          ∧ l.map Call.blockUserId = userIDs.map some
          ∧ (∀ c ∈ l, ∃ u e, c = Call.BlockUser u (blockReason disputeId) e)
          ∧ (blockUsers s disputeId userIDs w errs).1 = errs ++ l.filterMap Call.blockFailure
          ∧ (blockUsers s disputeId userIDs w errs).2.blocked
              = w.blocked ++ l.filterMap Call.blockSuccess
          ∧ (blockUsers s disputeId userIDs w errs).2.ledger = w.ledger
          ∧ (blockUsers s disputeId userIDs w errs).2.costCenters = w.costCenters := by
  induction userIDs with
  | nil =>
    intro w errs
    exact ⟨[], by simp [blockUsers]⟩
  | cons u rest ih =>
    intro w errs
    unfold blockUsers BlockUser
    cases hb : s.userService.BlockUser w u (blockReason disputeId) with
    | none =>
      simp only [Option.isNone_none, if_true]
      obtain ⟨l, h1, h2, h3, h4, h5, h6, h7⟩ := ih
        { w with
          calls := w.calls ++ [Call.BlockUser u (blockReason disputeId) none]
          blocked := w.blocked ++ [u] } errs
      refine ⟨Call.BlockUser u (blockReason disputeId) none :: l, ?_, ?_, ?_, ?_, ?_, h6, h7⟩
      · rw [h1]; simp
      · simp [h2, Call.blockUserId]
      · intro c hc
        rcases List.mem_cons.mp hc with rfl | hc
        · exact ⟨_, _, rfl⟩
        · exact h3 c hc
      · rw [h4]; simp [Call.blockFailure]
      · rw [h5]; simp [Call.blockSuccess]
    | some err =>
      simp only [Option.isNone_some, Bool.false_eq_true, if_false]
      obtain ⟨l, h1, h2, h3, h4, h5, h6, h7⟩ := ih
        { w with calls := w.calls ++ [Call.BlockUser u (blockReason disputeId) (some err)] }
        (errs ++ [blockError u err])
      refine ⟨Call.BlockUser u (blockReason disputeId) (some err) :: l,
        ?_, ?_, ?_, ?_, ?_, h6, h7⟩
      · rw [h1]; simp
      · simp [h2, Call.blockUserId]
      · intro c hc
        rcases List.mem_cons.mp hc with rfl | hc
        · exact ⟨_, _, rfl⟩
        · exact h3 c hc
      · rw [h4]; simp [Call.blockFailure, blockError]
      · rw [h5]; simp [Call.blockSuccess]

theorem OnChargeDispute_run (s : BillingService) (w : World) (disputeId : String)
    (dispute : Dispute) (customer : Customer) (attributionIDValue : String)
    (attributionID : AttributionID) (userIDs : List String)
    (hid : disputeId ≠ "")
    (hdispute : s.stripeClient.GetDispute w disputeId = .ok dispute)
    (hcustomer : dispute.PaymentIntent.bind (fun pi => pi.Customer) = some customer)
    (hmeta : customer.Metadata.lookup AttributionIDMetadataKey = some attributionIDValue)
    (hparse : s.conn.ParseAttributionID attributionIDValue = .ok attributionID)
    (htargets : userIDsToBlock s w attributionID attributionIDValue = .ok userIDs) :
    OnChargeDispute s w disputeId
      = if (blockUsers s disputeId userIDs w []).1.length > 0 then
          (.error ⟨.Internal,
            "failed to block users: " ++ formatErrors (blockUsers s disputeId userIDs w []).1⟩,
            (blockUsers s disputeId userIDs w []).2)
        else (.ok (), (blockUsers s disputeId userIDs w []).2) := by
  simp only [OnChargeDispute, hid, if_false, hdispute, hcustomer, hmeta, hparse, htargets]

theorem userIDsToBlock_team (s : BillingService) (w : World) (attributionID : AttributionID)
    (attributionIDValue : String) (members : List TeamMember)
    (hentity : (s.conn.Values attributionID).1 = AttributionEntity_Team)
    (hteam : s.teamsService.GetTeam w (s.conn.Values attributionID).2 = .ok members) :
    userIDsToBlock s w attributionID attributionIDValue
      = .ok ((members.filter (fun member => decide (member.Role = TeamRole.TEAM_ROLE_OWNER))).map
          (fun member => member.UserId)) := by
  have hne : AttributionEntity_Team ≠ AttributionEntity_User := by decide
  have hpred : (fun member : TeamMember => !(member.Role != TeamRole.TEAM_ROLE_OWNER))
      = (fun member => decide (member.Role = TeamRole.TEAM_ROLE_OWNER)) := by
    funext member
    cases member.Role <;> rfl
  simp only [userIDsToBlock, hentity, hne, if_false, if_true, hteam, hpred]

theorem userIDsToBlock_user (s : BillingService) (w : World) (attributionID : AttributionID)
    (attributionIDValue : String)
    (hentity : (s.conn.Values attributionID).1 = AttributionEntity_User) :
    userIDsToBlock s w attributionID attributionIDValue
      = .ok [(s.conn.Values attributionID).2] := by
  simp only [userIDsToBlock, hentity, if_true]

theorem OnChargeDispute_calls (s : BillingService) (w : World) (disputeId : String)
    (dispute : Dispute) (customer : Customer) (attributionIDValue : String)
    (attributionID : AttributionID) (userIDs : List String)
    (hid : disputeId ≠ "")
    (hdispute : s.stripeClient.GetDispute w disputeId = .ok dispute)
    (hcustomer : dispute.PaymentIntent.bind (fun pi => pi.Customer) = some customer)
    (hmeta : customer.Metadata.lookup AttributionIDMetadataKey = some attributionIDValue)
    (hparse : s.conn.ParseAttributionID attributionIDValue = .ok attributionID)
    (htargets : userIDsToBlock s w attributionID attributionIDValue = .ok userIDs) :
    ∃ l : List Call, (OnChargeDispute s w disputeId).2.calls = w.calls ++ l
      ∧ l.map Call.blockUserId = userIDs.map some
      ∧ (∀ c ∈ l, ∃ u e, c = Call.BlockUser u (blockReason disputeId) e)
      ∧ ((OnChargeDispute s w disputeId).1 = .ok () ↔ l.filterMap Call.blockFailure = [])
      ∧ (l.filterMap Call.blockFailure ≠ [] →
          (OnChargeDispute s w disputeId).1 = .error ⟨.Internal,
            "failed to block users: " ++ formatErrors (l.filterMap Call.blockFailure)⟩)
      ∧ (OnChargeDispute s w disputeId).2.blocked = w.blocked ++ l.filterMap Call.blockSuccess := by
  have hrun := OnChargeDispute_run s w disputeId dispute customer attributionIDValue
    attributionID userIDs hid hdispute hcustomer hmeta hparse htargets
  obtain ⟨l, h1, h2, h3, h4, h5, _, _⟩ := blockUsers_spec s disputeId userIDs w []
  rw [List.nil_append] at h4
  refine ⟨l, ?_, h2, h3, ?_, ?_, ?_⟩
  · rw [hrun]; split <;> exact h1
  · rw [hrun, h4]
    cases hl : l.filterMap Call.blockFailure <;> simp
  · intro hne
    rw [hrun, h4]
    have : (l.filterMap Call.blockFailure).length > 0 := List.length_pos.mpr hne
    simp [this]
  · rw [hrun]; split <;> exact h5

/-- C4: for a dispute whose customer attribution is a team, the users `OnChargeDispute`
passes to `BlockUser` are exactly the members of the team whose role is owner, in
membership order (each with the reason naming the dispute), and nothing else is
called; for a user attribution the one user passed is the identifier of the
attribution. -/
theorem dispute_blocks_owners (s : BillingService) (w : World) (disputeId : String)
    (dispute : Dispute) (customer : Customer) (attributionIDValue : String)
    (attributionID : AttributionID)
    (hid : disputeId ≠ "")
    (hdispute : s.stripeClient.GetDispute w disputeId = .ok dispute)
    (hcustomer : dispute.PaymentIntent.bind (fun pi => pi.Customer) = some customer)
    (hmeta : customer.Metadata.lookup AttributionIDMetadataKey = some attributionIDValue)
    (hparse : s.conn.ParseAttributionID attributionIDValue = .ok attributionID) :
    (∀ members, (s.conn.Values attributionID).1 = AttributionEntity_Team →
        s.teamsService.GetTeam w (s.conn.Values attributionID).2 = .ok members →
        ∃ l : List Call, (OnChargeDispute s w disputeId).2.calls = w.calls ++ l
          ∧ l.map Call.blockUserId
            = ((members.filter (fun member =>
                  decide (member.Role = TeamRole.TEAM_ROLE_OWNER))).map
                (fun member => member.UserId)).map some
          ∧ ∀ c ∈ l, ∃ u e, c = Call.BlockUser u (blockReason disputeId) e)
      ∧ ((s.conn.Values attributionID).1 = AttributionEntity_User →
        ∃ l : List Call, (OnChargeDispute s w disputeId).2.calls = w.calls ++ l
          ∧ l.map Call.blockUserId = [some (s.conn.Values attributionID).2]
          ∧ ∀ c ∈ l, ∃ u e, c = Call.BlockUser u (blockReason disputeId) e) := by
  constructor
  · intro members hentity hteam
    obtain ⟨l, h1, h2, h3, _⟩ := OnChargeDispute_calls s w disputeId dispute customer
      attributionIDValue attributionID _ hid hdispute hcustomer hmeta hparse
      (userIDsToBlock_team s w attributionID attributionIDValue members hentity hteam)
    exact ⟨l, h1, h2, h3⟩
  · intro hentity
    obtain ⟨l, h1, h2, h3, _⟩ := OnChargeDispute_calls s w disputeId dispute customer
      attributionIDValue attributionID _ hid hdispute hcustomer hmeta hparse
      (userIDsToBlock_user s w attributionID attributionIDValue hentity)
    exact ⟨l, h1, h2, h3⟩

/-- C4 (witness): the dispute `dp_1` traces to `team:7` with owners `u1`, `u3` and
member `u2`; the users passed to `BlockUser` are `u1` and `u3`. -/
theorem dispute_blocks_owners_witness :
    (OnChargeDispute exampleService exampleWorld "dp_1").2.calls.map Call.blockUserId
      = [some "u1", some "u3"] := by
  obtain ⟨l, h1, h2, _⟩ := (dispute_blocks_owners exampleService exampleWorld "dp_1"
    ⟨"dp_1", some ⟨some (customerOf "cus_7" "team:7")⟩⟩ (customerOf "cus_7" "team:7")
    "team:7" "team:7" (by decide) rfl rfl rfl rfl).1 team7 (by decide) rfl
  rw [h1, List.map_append, h2]
  rfl

/-- C5: `OnChargeDispute` attempts `BlockUser` once for every block target, in order,
whatever the earlier attempts answered, and makes no other call; it succeeds
exactly when no attempt failed and otherwise fails with `Internal`, the message
listing one error per failed attempt; the users whose attempt succeeded are
added to the blocked users. -/
theorem dispute_blocks_every_target (s : BillingService) (w : World) (disputeId : String)
    (dispute : Dispute) (customer : Customer) (attributionIDValue : String)
    (attributionID : AttributionID) (userIDs : List String)
    (hid : disputeId ≠ "")
    (hdispute : s.stripeClient.GetDispute w disputeId = .ok dispute)
    (hcustomer : dispute.PaymentIntent.bind (fun pi => pi.Customer) = some customer)
    (hmeta : customer.Metadata.lookup AttributionIDMetadataKey = some attributionIDValue)
    (hparse : s.conn.ParseAttributionID attributionIDValue = .ok attributionID)
    (htargets : userIDsToBlock s w attributionID attributionIDValue = .ok userIDs) :
    ∃ l : List Call, (OnChargeDispute s w disputeId).2.calls = w.calls ++ l
      ∧ l.map Call.blockUserId = userIDs.map some
      ∧ (∀ c ∈ l, ∃ u e, c = Call.BlockUser u (blockReason disputeId) e)
      ∧ ((OnChargeDispute s w disputeId).1 = .ok () ↔ l.filterMap Call.blockFailure = [])
      ∧ (l.filterMap Call.blockFailure ≠ [] →
          (OnChargeDispute s w disputeId).1 = .error ⟨.Internal,
            "failed to block users: " ++ formatErrors (l.filterMap Call.blockFailure)⟩)
      ∧ (OnChargeDispute s w disputeId).2.blocked = w.blocked ++ l.filterMap Call.blockSuccess :=
  OnChargeDispute_calls s w disputeId dispute customer attributionIDValue attributionID userIDs
    hid hdispute hcustomer hmeta hparse htargets

/-- C5 (witness): for the dispute `dp_1` the block of `u1` succeeds and the block of
`u3` fails; both are attempted, the call fails with `Internal`, and `u1` is
blocked. -/
theorem dispute_blocks_every_target_witness :
    (OnChargeDispute exampleService exampleWorld "dp_1").2.calls.map Call.blockUserId
        = [some "u1", some "u3"]
      ∧ (OnChargeDispute exampleService exampleWorld "dp_1").1
        = .error ⟨.Internal, "failed to block users: [failed to block user u3: unavailable]"⟩
      ∧ (OnChargeDispute exampleService exampleWorld "dp_1").2.blocked = ["u1"] := by
  obtain ⟨l, h1, h2, _, _, _, _⟩ := dispute_blocks_every_target exampleService exampleWorld
    "dp_1" ⟨"dp_1", some ⟨some (customerOf "cus_7" "team:7")⟩⟩ (customerOf "cus_7" "team:7")
    "team:7" "team:7" ["u1", "u3"] (by decide) rfl rfl rfl rfl rfl
  refine ⟨?_, rfl, rfl⟩
  rw [h1, List.map_append, h2]
  rfl

/-! ## Cancelling a subscription -/

theorem find?_map_supersede (cc : CostCenter) (store : List CostCenter)
    (h : store.any (fun c => c.ID == cc.ID) = true) :
    (store.map (fun c => if c.ID == cc.ID then cc else c)).find? (fun c => c.ID == cc.ID)
      = some cc := by
  induction store with
  | nil => simp at h
  | cons c rest ih =>
    by_cases hc : c.ID = cc.ID
    · simp [hc]
    · have hrest : rest.any (fun c => c.ID == cc.ID) = true := by
        simpa [hc] using h
      simp only [List.map_cons]
      have hne : (c.ID == cc.ID) = false := by simpa using hc
      simp only [hne, Bool.false_eq_true, if_false]
      rw [List.find?_cons_of_neg]
      · exact ih hrest
      · simp [hc]

theorem findCostCenter_supersede (cc : CostCenter) (store : List CostCenter) :
    findCostCenter (supersede cc store) cc.ID = some cc := by
  unfold findCostCenter supersede
  by_cases h : store.any (fun c => c.ID == cc.ID) = true
  · simp only [h, if_true]
    exact find?_map_supersede cc store h
  · simp only [h, Bool.false_eq_true, if_false]
    rw [List.find?_append]
    have hnone : store.find? (fun c => c.ID == cc.ID) = none := by
      rw [List.find?_eq_none]
      intro c hc hp
      exact h (List.any_eq_true.mpr ⟨c, hc, hp⟩)
    simp [hnone]

theorem eq_of_mem_supersede (cc : CostCenter) (store : List CostCenter) (c : CostCenter)
    (hmem : c ∈ supersede cc store) (hid : c.ID = cc.ID) : c = cc := by
  unfold supersede at hmem
  by_cases h : store.any (fun c => c.ID == cc.ID) = true
  · simp only [h, if_true, List.mem_map] at hmem
    obtain ⟨x, _, hx⟩ := hmem
    by_cases hxid : x.ID = cc.ID
    · simpa [hxid] using hx.symm
    · have hne : (x.ID == cc.ID) = false := by simpa using hxid
      simp only [hne, Bool.false_eq_true, if_false] at hx
      subst hx
      exact absurd hid hxid
  · simp only [h, Bool.false_eq_true, if_false, List.mem_append, List.mem_singleton] at hmem
    rcases hmem with hmem | hmem
    · exact absurd (List.any_eq_true.mpr ⟨c, hmem, by simpa using hid⟩) h
    · exact hmem

theorem supersede_eq_self (cc : CostCenter) (store : List CostCenter)
    (hfind : findCostCenter store cc.ID = some cc)
    (hall : ∀ c ∈ store, c.ID = cc.ID → c = cc) : supersede cc store = store := by
  unfold supersede
  have hany : store.any (fun c => c.ID == cc.ID) = true := by
    unfold findCostCenter at hfind
    have hmem := List.mem_of_find?_eq_some hfind
    exact List.any_eq_true.mpr ⟨cc, hmem, by simp⟩
  simp only [hany, if_true]
  conv_rhs => rw [← List.map_id store]
  apply List.map_congr_left
  intro c hc
  by_cases hid : c.ID = cc.ID
  · simp [hid, hall c hc hid]
  · have hne : (c.ID == cc.ID) = false := by simpa using hid
    simp [hne]

theorem GetOrCreateCostCenter_id (cm : CostCenterManager) (w w1 : World) (a : AttributionID)
    (cc : CostCenter) (h : cm.GetOrCreateCostCenter w a = (.ok cc, w1)) : cc.ID = a := by
  unfold CostCenterManager.GetOrCreateCostCenter at h
  cases hf : cm.getOrCreateFailure w a with
  | some err => simp [hf] at h
  | none =>
    cases hfind : findCostCenter w.costCenters a with
    | some found =>
      simp only [hf, hfind, Prod.mk.injEq, Except.ok.injEq] at h
      have := List.find?_some hfind
      rw [← h.1]
      simpa using this
    | none =>
      simp only [hf, hfind, Prod.mk.injEq, Except.ok.injEq] at h
      rw [← h.1]

theorem GetOrCreateCostCenter_found (cm : CostCenterManager) (w : World) (a : AttributionID)
    (cc : CostCenter) (hfind : findCostCenter w.costCenters a = some cc) :
    cm.GetOrCreateCostCenter w a = (.ok cc, w)
      ∨ ∃ err, cm.GetOrCreateCostCenter w a = (.error err, w) := by
  unfold CostCenterManager.GetOrCreateCostCenter
  cases hf : cm.getOrCreateFailure w a with
  | some err => exact Or.inr ⟨err, rfl⟩
  | none => exact Or.inl (by simp [hfind])

theorem CancelSubscription_ok (s : BillingService) (w w1 : World) (subscriptionId : String)
    (subscription : SubscriptionWithCustomer) (attributionID : AttributionID)
    (hsub : s.stripeClient.GetSubscriptionWithCustomer w subscriptionId = .ok subscription)
    (hattr : s.stripeClient.GetAttributionID subscription.Customer = .ok attributionID)
    (hrun : CancelSubscription s w subscriptionId = (.ok (), w1)) :
    ∃ cc store, cc.ID = attributionID ∧ cc.BillingStrategy = BillingStrategy.CostCenter_Other
      ∧ w1.costCenters = supersede cc store := by
  unfold CancelSubscription at hrun
  by_cases hid : subscriptionId = ""
  · simp [hid] at hrun
  · simp only [hid, if_false, hsub, hattr] at hrun
    cases hget : s.ccManager.GetOrCreateCostCenter w attributionID with
    | mk r wa =>
      cases r with
      | error err => simp [hget] at hrun
      | ok cc0 =>
        have hcc0 := GetOrCreateCostCenter_id s.ccManager w wa attributionID cc0 hget
        simp only [hget, CostCenterManager.UpdateCostCenter] at hrun
        cases hup : s.ccManager.updateFailure wa
            { cc0 with BillingStrategy := BillingStrategy.CostCenter_Other } with
        | some err => simp [hup] at hrun
        | none =>
          simp only [hup, Prod.mk.injEq, true_and] at hrun
          exact ⟨{ cc0 with BillingStrategy := BillingStrategy.CostCenter_Other },
            wa.costCenters, hcc0, rfl, by rw [← hrun]⟩

/-- C8: a successful `CancelSubscription` for a subscription that resolves to an
attribution leaves the cost center of that attribution in the store with the
strategy `CostCenter_Other`, whatever it was before, and that is what a later
`GetOrCreateCostCenter` returns; applying `CancelSubscription` again, with the
subscription resolving to the same attribution or not resolving, leaves the
world, hence the cost-center store, as the first application left it. -/
theorem cancel_subscription_sets_other (s : BillingService) (w w1 : World)
    (subscriptionId : String) (subscription : SubscriptionWithCustomer)
    (attributionID : AttributionID)
    (hsub : s.stripeClient.GetSubscriptionWithCustomer w subscriptionId = .ok subscription)
    (hattr : s.stripeClient.GetAttributionID subscription.Customer = .ok attributionID)
    (hrun : CancelSubscription s w subscriptionId = (.ok (), w1)) :
    (∃ cc, findCostCenter w1.costCenters attributionID = some cc
        ∧ cc.BillingStrategy = BillingStrategy.CostCenter_Other)
      ∧ (costCenterOf s.ccManager w1 attributionID).BillingStrategy
          = BillingStrategy.CostCenter_Other
      ∧ (∀ cc w2, s.ccManager.GetOrCreateCostCenter w1 attributionID = (.ok cc, w2) →
          cc.BillingStrategy = BillingStrategy.CostCenter_Other)
      ∧ ((∀ subscription2 b,
            s.stripeClient.GetSubscriptionWithCustomer w1 subscriptionId = .ok subscription2 →
            s.stripeClient.GetAttributionID subscription2.Customer = .ok b →
            b = attributionID) →
          (CancelSubscription s w1 subscriptionId).2 = w1
            ∧ (CancelSubscription s w1 subscriptionId).2.costCenters = w1.costCenters) := by
  obtain ⟨cc, store, hccid, hother, hstore⟩ :=
    CancelSubscription_ok s w w1 subscriptionId subscription attributionID hsub hattr hrun
  have hfind : findCostCenter w1.costCenters attributionID = some cc := by
    rw [hstore, ← hccid]
    exact findCostCenter_supersede cc store
  have hall : ∀ c ∈ w1.costCenters, c.ID = cc.ID → c = cc := by
    intro c hc hid
    rw [hstore] at hc
    exact eq_of_mem_supersede cc store c hc hid
  refine ⟨⟨cc, hfind, hother⟩, by simp [costCenterOf, hfind, hother], ?_, ?_⟩
  · intro cc2 w2 hget
    rcases GetOrCreateCostCenter_found s.ccManager w1 attributionID cc hfind with h | ⟨err, h⟩
    · rw [h] at hget
      simp only [Prod.mk.injEq, Except.ok.injEq] at hget
      rw [← hget.1]
      exact hother
    · rw [h] at hget
      simp at hget
  · intro hsame
    have hw : (CancelSubscription s w1 subscriptionId).2 = w1 := by
      unfold CancelSubscription
      split
      · rfl
      · cases hsub2 : s.stripeClient.GetSubscriptionWithCustomer w1 subscriptionId with
        | error err => rfl
        | ok subscription2 =>
          simp only
          cases hattr2 : s.stripeClient.GetAttributionID subscription2.Customer with
          | error err => rfl
          | ok b =>
            have hb : b = attributionID := hsame subscription2 b hsub2 hattr2
            subst hb
            simp only
            rcases GetOrCreateCostCenter_found s.ccManager w1 b cc hfind with h | ⟨err, h⟩
            · have hcc : ({ cc with BillingStrategy := BillingStrategy.CostCenter_Other }
                  : CostCenter) = cc := by
                cases cc
                simp only [CostCenter.mk.injEq, true_and, and_true] at hother ⊢
                exact hother.symm
              simp only [h, hcc, CostCenterManager.UpdateCostCenter]
              cases hup : s.ccManager.updateFailure w1 cc with
              | some err => rfl
              | none =>
                simp only
                rw [← hccid] at hfind
                rw [supersede_eq_self cc w1.costCenters hfind hall]
            · simp only [h]
    exact ⟨hw, by rw [hw]⟩

/-- C8 (witness): `CancelSubscription "sub_9"` resolves to `user:5`, whose cost center
was processor billed; afterwards it has the strategy `CostCenter_Other`, and a
second application changes nothing. -/
theorem cancel_subscription_sets_other_witness :
    (costCenterOf exampleService.ccManager
        (CancelSubscription exampleService exampleWorld "sub_9").2 "user:5").BillingStrategy
        = BillingStrategy.CostCenter_Other
      ∧ (CancelSubscription exampleService
          (CancelSubscription exampleService exampleWorld "sub_9").2 "sub_9").2
        = (CancelSubscription exampleService exampleWorld "sub_9").2 := by
  have h := cancel_subscription_sets_other exampleService exampleWorld
    (CancelSubscription exampleService exampleWorld "sub_9").2 "sub_9"
    ⟨"sub_9", some (customerOf "cus_5" "user:5")⟩ "user:5" rfl rfl rfl
  refine ⟨h.2.1, (h.2.2.2 ?_).1⟩
  intro subscription2 b hsub2 hattr2
  have h1 : subscription2 = ⟨"sub_9", some (customerOf "cus_5" "user:5")⟩ :=
    (Except.ok.inj hsub2).symm
  subst h1
  exact (Except.ok.inj hattr2).symm

/-- C9: in `FinalizeInvoice`, once the usage record is computed, a failed ledger
insertion makes the call fail with `Internal` and leaves the world unchanged; a
successful insertion makes the call succeed whatever the billing-cycle
increment, the balance read and the usage update answer, and the record is the
last entry of the ledger afterwards. -/
theorem finalize_invoice_insert_fatal_rest_best_effort (s : BillingService) (w : World)
    (invoiceId : String) (invoice : Invoice) (usage : Usage) (hid : invoiceId ≠ "")
    (hinv : s.stripeClient.GetInvoiceWithCustomer w invoiceId = .ok invoice)
    (husage : InternalComputeInvoiceUsage s w invoice = .ok usage) :
    (∀ err, s.conn.InsertUsage w usage = some err →
        (FinalizeInvoice s w invoiceId).1
            = .error ⟨.Internal, "Failed to insert Invoice into usage records."⟩
          ∧ (FinalizeInvoice s w invoiceId).2 = w)
      ∧ (s.conn.InsertUsage w usage = none →
        (FinalizeInvoice s w invoiceId).1 = .ok ()
          ∧ (FinalizeInvoice s w invoiceId).2.ledger = w.ledger ++ [usage]) := by
  constructor
  · intro err hins
    simp [FinalizeInvoice, hid, hinv, husage, InsertUsage_of_some s w usage err hins]
  · intro hins
    exact FinalizeInvoice_after_insert s w invoiceId invoice usage hid hinv husage hins

/-- C9 (witness): with a billing-cycle increment, a balance read and a usage update
that all fail, `FinalizeInvoice "inv_1"` still succeeds and the ledger holds the
one inserted record. -/
theorem finalize_invoice_insert_fatal_rest_best_effort_witness :
    (FinalizeInvoice exampleServiceWithoutSync exampleWorld "inv_1").1 = .ok ()
      ∧ ∃ usage, InternalComputeInvoiceUsage exampleServiceWithoutSync exampleWorld invoice1
            = .ok usage
          ∧ (FinalizeInvoice exampleServiceWithoutSync exampleWorld "inv_1").2.ledger = [usage] := by
  have hok := InternalComputeInvoiceUsage_ok exampleServiceWithoutSync exampleWorld invoice1
    "team:42" [⟨300⟩, ⟨150⟩] rfl rfl (by simp)
  have h := (finalize_invoice_insert_fatal_rest_best_effort exampleServiceWithoutSync
    exampleWorld "inv_1" invoice1 _ (by decide) rfl hok).2 rfl
  exact ⟨h.1, _, hok, h.2⟩

/-! ## Price resolution and customer lookup -/

/-- C11 (amended): `getPriceIdentifier` resolves, for a user attribution and for a
team attribution alike, the preferred currency `EUR` to the EUR price of the
entity kind and every other preferred currency, unset ones included, to the USD
price of the entity kind; it fails with `InvalidArgument` only when the entity
of the attribution is neither user nor team. -/
theorem price_identifier_resolution (s : BillingService) (attributionID : AttributionID)
    (stripeCustomer : Customer) :
    ((s.conn.Values attributionID).1 = AttributionEntity_User →
        getPriceIdentifier attributionID stripeCustomer s
          = .ok (if mapIndex stripeCustomer.Metadata "preferredCurrency" = "EUR"
              then s.stripePrices.IndividualUsagePriceIDs.EUR
              else s.stripePrices.IndividualUsagePriceIDs.USD))
      ∧ ((s.conn.Values attributionID).1 = AttributionEntity_Team →
        getPriceIdentifier attributionID stripeCustomer s
          = .ok (if mapIndex stripeCustomer.Metadata "preferredCurrency" = "EUR"
              then s.stripePrices.TeamUsagePriceIDs.EUR
              else s.stripePrices.TeamUsagePriceIDs.USD))
      ∧ ((s.conn.Values attributionID).1 ≠ AttributionEntity_User →
        (s.conn.Values attributionID).1 ≠ AttributionEntity_Team →
        ∃ err, getPriceIdentifier attributionID stripeCustomer s = .error err
          ∧ err.code = Code.InvalidArgument)
      ∧ (stripeCustomer.Metadata.lookup "preferredCurrency" = none →
        mapIndex stripeCustomer.Metadata "preferredCurrency" ≠ "EUR") := by
  refine ⟨?_, ?_, ?_, ?_⟩
  · intro hentity
    simp only [getPriceIdentifier, hentity, if_true]
    split <;> rfl
  · intro hentity
    have hne : AttributionEntity_Team ≠ AttributionEntity_User := by decide
    simp only [getPriceIdentifier, hentity, hne, if_false, if_true]
    split <;> rfl
  · intro huser hteam
    simp only [getPriceIdentifier, huser, hteam, if_false]
    exact ⟨_, rfl, rfl⟩
  · intro hnone
    simp only [mapIndex, hnone, Option.getD_none]
    decide

/-- C11 (counterexample): for the team attribution `team:42` and a customer whose
preferred currency is `GBP`, which is no supported currency, `getPriceIdentifier`
does not fail: it resolves to the USD team price. -/
theorem price_identifier_team_unsupported_currency_defaults :
    exampleService.conn.Values "team:42" = (AttributionEntity_Team, "42")
      ∧ mapIndex (customerWithCurrency "cus_42" "team:42" "GBP").Metadata "preferredCurrency"
        = "GBP"
      ∧ getPriceIdentifier "team:42" (customerWithCurrency "cus_42" "team:42" "GBP")
          exampleService = .ok "price_team_usd"
      ∧ ¬ ∃ err, getPriceIdentifier "team:42" (customerWithCurrency "cus_42" "team:42" "GBP")
          exampleService = .error err := by
  refine ⟨by decide, by decide, rfl, ?_⟩
  rintro ⟨err, herr⟩
  have hok : getPriceIdentifier "team:42" (customerWithCurrency "cus_42" "team:42" "GBP")
      exampleService = .ok "price_team_usd" := rfl
  rw [hok] at herr
  cases herr

theorem GetStripeCustomer_attribution_cache_error (s : BillingService) (w : World)
    (attributionId : String) (attributionID : AttributionID) (msg : String)
    (hparse : s.conn.ParseAttributionID attributionId = .ok attributionID)
    (hdb : s.conn.GetStripeCustomerByAttributionID w attributionID = .error (.other msg)) :
    GetStripeCustomer s w (.AttributionId attributionId) = (.ok ⟨"", ""⟩, w) := by
  simp only [GetStripeCustomer, hparse, hdb]
  rfl

theorem GetStripeCustomer_customer_id_cache_error (s : BillingService) (w : World)
    (stripeCustomerId : String) (msg : String) (hid : stripeCustomerId ≠ "")
    (hdb : s.conn.GetStripeCustomer w stripeCustomerId = .error (.other msg)) :
    GetStripeCustomer s w (.StripeCustomerId stripeCustomerId)
      = (.error ⟨.NotFound, "Failed to lookup stripe customer from DB: " ++ msg⟩, w) := by
  simp only [GetStripeCustomer, hid, if_false, hdb]

/-- C12 (code defect): when the customer cache fails with an error other than
`db.ErrorNotFound`, `GetStripeCustomer` by attribution returns a successful
response holding the empty customer and leaves the world unchanged, whereas
`GetStripeCustomer` by processor customer id returns the error `NotFound` for
the same failure of the cache. -/
theorem get_stripe_customer_by_attribution_swallows_cache_error :
    exampleServiceCacheDown.conn.ParseAttributionID "team:42" = .ok "team:42"
      ∧ exampleServiceCacheDown.conn.GetStripeCustomerByAttributionID exampleWorld "team:42"
        = .error (.other "connection refused")
      ∧ GetStripeCustomer exampleServiceCacheDown exampleWorld (.AttributionId "team:42")
        = (.ok ⟨"", ""⟩, exampleWorld)
      ∧ exampleServiceCacheDown.conn.GetStripeCustomer exampleWorld "cus_42"
        = .error (.other "connection refused")
      ∧ GetStripeCustomer exampleServiceCacheDown exampleWorld (.StripeCustomerId "cus_42")
        = (.error ⟨.NotFound, "Failed to lookup stripe customer from DB: connection refused"⟩,
            exampleWorld) :=
  ⟨rfl, rfl,
    GetStripeCustomer_attribution_cache_error exampleServiceCacheDown exampleWorld "team:42"
      "team:42" "connection refused" rfl rfl,
    rfl,
    GetStripeCustomer_customer_id_cache_error exampleServiceCacheDown exampleWorld "cus_42"
      "connection refused" (by decide) rfl⟩

end Billing
